import Mathlib

/-!
# HILchrono: IDM follower and ring-neighbour protocol

A shallow embedding of

* `src/chrono_hil/driver/ChIDM_Follower.cpp` (`ChIDMFollower::Synchronize`, `Get_Dist`,
  `Set_TheroSpeed`),
* the step loop of `src/project/Ring_Exp/proj_HIL_ring.cpp` (one MPI rank per vehicle),
* the step loop of `src/project/Rom_Models/proj_HIL_8dof_ring.cpp` (all vehicles in one process).

Numbers: the sources compute in `double`/`float`.  The embedding is generic in a linearly ordered
field `α` (no rounding, no `inf`/`NaN`), and the C math library functions `sqrt`, `pow`, `acos` are
passed in as a record `Libm α`, so every definition is computable.  Theorems that need the meaning
of these functions are stated over `ℝ` with `Real.sqrt`, real powers and `Real.arccos`.

Special values: where a property turns on `NaN` or on a division by zero, lines 47-68 of
`Synchronize` are embedded a second time on `Dbl α` (a number, `+inf`, `-inf` or `NaN`, with the
IEEE 754 and C99 rules for these values); inside the domain of the law the two embeddings agree
(`SynchronizeD_num`).
-/

namespace HILchrono

variable {α : Type} [LinearOrderedField α]

/-- The functions of the C math library the sources call. -/
structure Libm (α : Type) where
  /-- C `sqrt` -/
  sqrt : α → α
  /-- C `pow` -/
  pow : α → α → α
  /-- C `acos` -/
  acos : α → α

/-- Chrono `ChMax(a, b)`: `if (a > b) return a; return b;`. -/
def ChMax (a b : α) : α := if a > b then a else b

/-- Chrono `ChVector<>`: three coordinates. -/
structure ChVector (α : Type) where
  x : α
  y : α
  z : α

/-- Chrono `ChVector::operator-`. -/
def ChVector.sub (p q : ChVector α) : ChVector α :=
  ⟨p.x - q.x, p.y - q.y, p.z - q.z⟩

/-- Chrono `ChVector::Length()`: the Euclidean norm `sqrt(x*x + y*y + z*z)`. -/
def ChVector.Length (m : Libm α) (p : ChVector α) : α :=
  m.sqrt (p.x * p.x + p.y * p.y + p.z * p.z)

/-- What `ChIDMFollower::Synchronize` reads from `m_vehicle.GetChassis()`. -/
structure Chassis (α : Type) where
  /-- The value of `GetChassis()->GetPos()` -/
  GetPos : ChVector α
  /-- The value of `GetChassis()->GetSpeed()` -/
  GetSpeed : α

/-- The data members of `ChIDMFollower` that `ChIDM_Follower.cpp` touches.  `desiredSpeed` is the
value last handed to `SetDesiredSpeed` of the base class `ChPathFollowerDriver`. -/
structure ChIDMFollower (α : Type) where
  behavior_data : Fin 7 → α
  dist : α
  previousPos : ChVector α
  thero_speed : α
  desiredSpeed : α

namespace ChIDMFollower

/-- Local `s` of `Synchronize` (line 47): `lead_distance - behavior_data[6]`. -/
def s (self : ChIDMFollower α) (lead_distance : α) : α :=
  lead_distance - self.behavior_data 6

/-- Local `s_star` of `Synchronize` (lines 50-54), with `v` the chassis speed and
`delta_v = v - lead_speed`. -/
def s_star (m : Libm α) (self : ChIDMFollower α) (v lead_speed : α) : α :=
  let delta_v := v - lead_speed
  self.behavior_data 2 +
    ChMax 0 (v * self.behavior_data 1 +
      (v * delta_v) / (2 * m.sqrt (self.behavior_data 3 * self.behavior_data 4)))

/-- Local `dv_dt` of `Synchronize` (lines 55-57). -/
def dv_dt (m : Libm α) (self : ChIDMFollower α) (v lead_distance lead_speed : α) : α :=
  self.behavior_data 3 *
    (1 - m.pow (v / self.behavior_data 0) (self.behavior_data 5)
       - m.pow (s_star m self v lead_speed / s self lead_distance) 2)

/-- The member `ChIDMFollower::Synchronize(time, step, lead_distance, lead_speed)` (lines 35-71).
The closing call `ChPathFollowerDriver::Synchronize(time)` belongs to the Chrono library and
touches none of the members modelled here. -/
def Synchronize (m : Libm α) (self : ChIDMFollower α) (m_vehicle : Chassis α)
    (_time step lead_distance lead_speed : α) : ChIDMFollower α :=
  let dist := self.dist + (m_vehicle.GetPos.sub self.previousPos).Length m
  let previousPos := m_vehicle.GetPos
  let v := m_vehicle.GetSpeed
  let dv_dt := dv_dt m self v lead_distance lead_speed
  let thero_speed := self.thero_speed + dv_dt * step
  let v_ms := ChMax 0 thero_speed
  let thero_speed := if thero_speed < 0 then 0 else thero_speed
  { self with
    dist := dist, previousPos := previousPos, thero_speed := thero_speed, desiredSpeed := v_ms }

/-- The member `ChIDMFollower::Get_Dist()` (line 73). -/
def Get_Dist (self : ChIDMFollower α) : α := self.dist

/-- The member `ChIDMFollower::Set_TheroSpeed(target_thero_speed)` (lines 75-77). -/
def Set_TheroSpeed (self : ChIDMFollower α) (target_thero_speed : α) : ChIDMFollower α :=
  { self with thero_speed := target_thero_speed }

end ChIDMFollower

/-- The parameters pushed into `followerParam` by `proj_HIL_ring.cpp` (lines 306-313). -/
def followerParam : Fin 7 → α :=
  ![8.9408, 1.5, 2.0, 2.0, 2.0, 4.0, 4.8895]

/-! ## `proj_HIL_ring.cpp`: one MPI rank per vehicle -/

namespace Ring

/-- What one rank holds in a tick once the three `MPI_Allgather` calls (lines 361-366) have
returned: its rank, the number of ranks, its own vehicle, the gathered arrays (indexed by rank)
and its driver. -/
structure Rank (α : Type) where
  node_id : Nat
  num_nodes : Nat
  my_vehicle : Chassis α
  all_x : Nat → α
  all_y : Nat → α
  all_speed : Nat → α
  driver : ChIDMFollower α

/-- Line 396: `int lead_idx = (node_id + 1) % num_nodes;`. -/
def lead_idx (node_id num_nodes : Nat) : Nat := (node_id + 1) % num_nodes

/-- Lines 397-400: planar distance from the own vehicle to the gathered leader position. -/
def raw_dis (m : Libm α) (my_vehicle : Chassis α) (all_x all_y : Nat → α) (lead_idx : Nat) : α :=
  m.sqrt ((my_vehicle.GetPos.x - all_x lead_idx) * (my_vehicle.GetPos.x - all_x lead_idx) +
    (my_vehicle.GetPos.y - all_y lead_idx) * (my_vehicle.GetPos.y - all_y lead_idx))

/-- Lines 401-406: `temp` after the two-sided clamp. -/
def temp (raw_dis : α) : α :=
  let temp := 1 - (raw_dis * raw_dis) / (2.0 * 25.0 * 25.0)
  if temp > 1 then 1 else if temp < -1 then -1 else temp

/-- Line 408: `float theta = abs(acos(temp));` (`abs` read as the floating-point absolute
value). -/
def theta (m : Libm α) (temp : α) : α := abs (m.acos temp)

/-- Line 409: `float act_dis = theta * 25.0;`. -/
def act_dis (theta : α) : α := theta * 25.0

/-- The two values computed in lines 396-409 and passed to `driver.Synchronize` in line 413:
`act_dis` and `all_speed[lead_idx]`. -/
def syncArgs (m : Libm α) (r : Rank α) : α × α :=
  let lead_idx := lead_idx r.node_id r.num_nodes
  let raw_dis := raw_dis m r.my_vehicle r.all_x r.all_y lead_idx
  let temp := temp raw_dis
  let theta := theta m temp
  let act_dis := act_dis theta
  (act_dis, r.all_speed lead_idx)

/-- Lines 396-413 of the step loop, as far as the driver is concerned:
`driver.Synchronize(time, step_size, act_dis, all_speed[lead_idx])`. -/
def stepDriver (m : Libm α) (r : Rank α) (time step_size : α) : ChIDMFollower α :=
  r.driver.Synchronize m r.my_vehicle time step_size (syncArgs m r).1 (syncArgs m r).2

end Ring

/-! ## `proj_HIL_8dof_ring.cpp`: all vehicles in one process -/

namespace Rom

/-- What the step loop reads from a `Ch_8DOF_vehicle`. -/
structure Ch_8DOF_vehicle (α : Type) where
  /-- The value of `GetPos()` -/
  GetPos : ChVector α
  /-- The value of `GetVel()` -/
  GetVel : ChVector α

/-- Modelled from the spec: the member functions of `ChROM_IDMFollower`,
`ChROM_PathFollowerDriver` and `Ch_8DOF_vehicle` that the step loop calls are not among the
sources.  `I` is the state of one agent's controller together with its path-following driver, `D`
the driver inputs.  `Synchronize` takes the controller, its own vehicle and the four arguments
`(time, step_size, act_dis, lead speed)`; `GetDriverInput` turns the desired speed into
throttle/brake/steering; `Advance` advances the vehicle dynamics of one vehicle by one step and
produces its new state. -/
structure External (α I D : Type) where
  Synchronize : I → Ch_8DOF_vehicle α → α → α → α → α → I
  GetDriverInput : I → Ch_8DOF_vehicle α → D
  Advance : Ch_8DOF_vehicle α → α → D → Ch_8DOF_vehicle α

/-- Line 267: `int ld_idx = (i + 1) % num_rom;`. -/
def ld_idx (i num_rom : Nat) : Nat := (i + 1) % num_rom

/-- Lines 270-271: `(rom_vec[ld_idx]->GetPos() - rom_vec[i]->GetPos()).Length()`. -/
def raw_dis (m : Libm α) (rom_vec : Nat → Ch_8DOF_vehicle α) (i ld_idx : Nat) : α :=
  ((rom_vec ld_idx).GetPos.sub (rom_vec i).GetPos).Length m

/-- Lines 272-277: `temp` after the two-sided clamp. -/
def temp (raw_dis : α) : α :=
  let temp := 1 - (raw_dis * raw_dis) / (2.0 * 50 * 50)
  if temp > 1 then 1 else if temp < -1 then -1 else temp

/-- Line 279: `float theta = abs(acos(temp));` (`abs` read as the floating-point absolute
value). -/
def theta (m : Libm α) (temp : α) : α := abs (m.acos temp)

/-- Line 280: `float act_dis = theta * 50.f;`. -/
def act_dis (theta : α) : α := theta * 50

/-- The two values passed to `idm_vec[i]->Synchronize` in lines 337-338, computed from the
current contents of `rom_vec`: `act_dis` and `(rom_vec[ld_idx]->GetVel()).Length()`. -/
def syncArgs (m : Libm α) (rom_vec : Nat → Ch_8DOF_vehicle α) (num_rom i : Nat) : α × α :=
  let ld_idx := ld_idx i num_rom
  let raw_dis := raw_dis m rom_vec i ld_idx
  let temp := temp raw_dis
  let theta := theta m temp
  let act_dis := act_dis theta
  (act_dis, (rom_vec ld_idx).GetVel.Length m)

/-- The state the `for` loop of lines 265-343 works on: the vehicles, the controllers, and (for
reference) the list of argument pairs `(act_dis, lead speed)` handed to `Synchronize` so far in
this tick, in call order. -/
structure World (α I : Type) where
  rom_vec : Nat → Ch_8DOF_vehicle α
  idm_vec : Nat → I
  calls : List (α × α)

/-- One iteration of the `for` loop (lines 265-343) for agent `i`: compute the gap,
`idm_vec[i]->Synchronize(...)`, `driver_vec[i]->GetDriverInput()`, `rom_vec[i]->Advance(...)`. -/
def body {I D : Type} (m : Libm α) (E : External α I D) (num_rom : Nat) (time step_size : α)
    (w : World α I) (i : Nat) : World α I :=
  let args := syncArgs m w.rom_vec num_rom i
  let idm := E.Synchronize (w.idm_vec i) (w.rom_vec i) time step_size args.1 args.2
  let driver_inputs := E.GetDriverInput idm (w.rom_vec i)
  let veh := E.Advance (w.rom_vec i) time driver_inputs
  { rom_vec := Function.update w.rom_vec i veh
    idm_vec := Function.update w.idm_vec i idm
    calls := w.calls ++ [args] }

/-- The `for (int i = 0; i < num_rom; i++)` loop of one tick (lines 265-343). -/
def tickLoop {I D : Type} (m : Libm α) (E : External α I D) (num_rom : Nat) (time step_size : α)
    (w : World α I) : World α I :=
  (List.range num_rom).foldl (body m E num_rom time step_size) w

/-- Modelled from the spec: `Ch_8DOF_vehicle::Advance` is not among the sources; the spec only
says that it advances the vehicle dynamics by the step and produces the new state.  This is the
plainest such dynamics, used to run the loop on concrete data: the vehicle moves along its
velocity for a time `step_size` and keeps its velocity. -/
def coast (step_size : α) (veh : Ch_8DOF_vehicle α) : Ch_8DOF_vehicle α :=
  { veh with GetPos := ⟨veh.GetPos.x + veh.GetVel.x * step_size,
      veh.GetPos.y + veh.GetVel.y * step_size, veh.GetPos.z + veh.GetVel.z * step_size⟩ }

/-- Modelled from the spec: an `External` whose vehicles coast (`Advance` is `coast`, whatever
the driver inputs) and whose controller and driver carry no state. -/
def coasting (step_size : α) : External α Unit Unit where
  Synchronize := fun idm _ _ _ _ _ => idm
  GetDriverInput := fun _ _ => ()
  Advance := fun veh _ _ => coast step_size veh

/-- A state of the `num_rom = 19` vehicles at the start of a tick: the vehicles stand in index
order on a quarter of the ring of radius 50 (vehicle `j` at the point of parameter `t = j/18`,
from `(50, 0)` for vehicle 0 to `(0, 50)` for vehicle 18), at height 0.5, each driving at 5 m/s
along the ring towards its leader. -/
def sampleTick : Nat → Ch_8DOF_vehicle α :=
  fun j =>
    let t : α := (j : α) / 18
    ⟨⟨50 * (1 - t * t) / (1 + t * t), 50 * (2 * t) / (1 + t * t), 0.5⟩,
      ⟨-5 * (2 * t) / (1 + t * t), 5 * (1 - t * t) / (1 + t * t), 0⟩⟩

end Rom

/-! ## Sequences of calls, construction, and the `while` loops -/

/-- A call of one of the two mutating members of `ChIDMFollower` in `ChIDM_Follower.cpp`, with its
arguments (for `Synchronize` also the chassis state it reads). -/
inductive Call (α : Type) where
  | Synchronize (m_vehicle : Chassis α) (time step lead_distance lead_speed : α)
  | Set_TheroSpeed (target_thero_speed : α)

/-- The effect of one call on the controller. -/
def ChIDMFollower.call (m : Libm α) (self : ChIDMFollower α) : Call α → ChIDMFollower α
  | .Synchronize m_vehicle time step lead_distance lead_speed =>
      self.Synchronize m m_vehicle time step lead_distance lead_speed
  | .Set_TheroSpeed target_thero_speed => self.Set_TheroSpeed target_thero_speed

/-- The controller after a sequence of calls, first call first. -/
def ChIDMFollower.run (m : Libm α) (self : ChIDMFollower α) (calls : List (Call α)) :
    ChIDMFollower α :=
  calls.foldl (ChIDMFollower.call m) self

/-- Modelled from the spec: the constructor of `ChIDMFollower` is declared in `ChIDM_Follower.h`,
which is not among the sources.  The spec says of the parameters: "`v0=0` or `a*b≤0`: invalid
configuration; fails fast at construction, not at `Synchronize` time".  The initial values of the
other members are not specified and are taken from `init`. -/
def ChIDMFollower.construct (params : Fin 7 → α) (init : ChIDMFollower α) :
    Option (ChIDMFollower α) :=
  if params 0 = 0 ∨ params 3 * params 4 ≤ 0 then none
  else some { init with behavior_data := params }

namespace Ring

/-- Line 97: `double sim_time = 900.0;`. -/
def sim_time : α := 900.0

/-- Line 102: `double t_end = 1000;`. -/
def t_end : α := 1000

/-- The variables that steer the `while` loop of `main` (lines 350-430): the local `time`, the
time of the vehicle's Chrono system (`my_vehicle.GetSystem()->GetChTime()`) and `step_number`. -/
structure Loop (α : Type) where
  time : α
  ChTime : α
  step_number : Nat

/-- The way of `main` from the creation of the communicator (line 142) to the `while` loop
(line 350).  `node_id` and `num_nodes` are read from the communicator (lines 143-144); the only
exit on the way is `return 1` when `create_directory` fails (lines 291-294).  The loop starts with
`time = 0.0` (line 348), `step_number = 0` (line 327) and a fresh Chrono system at time 0. -/
def main_setup (_node_id _num_nodes : Nat) (create_directory : Bool) : Except Nat (Loop α) :=
  if !create_directory then .error 1
  else .ok ⟨0.0, 0, 0⟩

/-- One pass through `while (time <= sim_time) { ... }` (lines 350-430), as far as the flow of
control goes: `none` when the loop is left (condition false, or `break` at line 370), otherwise
the variables after a full tick.  `dt` is the amount by which `my_vehicle.Advance(step_size)`
(line 420, Chrono) advances the system time. -/
def pass (dt : α) (st : Loop α) : Option (Loop α) :=
  if st.time ≤ sim_time then
    let time := st.ChTime
    if time ≥ t_end then none
    else some ⟨time, st.ChTime + dt, st.step_number + 1⟩
  else none

/-- The `while` loop run with `fuel` passes at most: `some n` when the loop is left after `n` full
ticks, `none` when it is still running after `fuel` passes. -/
def ticks (dt : α) : Nat → Loop α → Option Nat
  | 0, _ => none
  | fuel + 1, st =>
    match pass dt st with
    | none => some 0
    | some st2 => (ticks dt fuel st2).map (· + 1)

end Ring

namespace Rom

/-- The variables the `while (true)` loop of `main` (lines 257-353) updates. -/
structure Loop (α I : Type) where
  world : World α I
  time : α
  step_number : Nat

/-- One pass through the body of `while (true)`: the `for` loop over the agents, then
`time += step_size; step_number += 1;` (lines 345-346).  The calls `sys.DoStepDynamics` and
`manager->Update` (lines 348-349) belong to Chrono and are left out. -/
def pass {I D : Type} (m : Libm α) (E : External α I D) (num_rom : Nat) (step_size : α)
    (st : Loop α I) : Loop α I :=
  ⟨tickLoop m E num_rom st.time step_size { st.world with calls := [] },
    st.time + step_size, st.step_number + 1⟩

/-- The loop `while (true) { ... }` (lines 257-353) run with `fuel` passes at most: `some` of the
state in which the loop is left, `none` when it is still running after `fuel` passes.  The body
holds no `break` and no `return`. -/
def whileTrue {I D : Type} (m : Libm α) (E : External α I D) (num_rom : Nat) (step_size : α) :
    Nat → Loop α I → Option (Loop α I)
  | 0, _ => none
  | fuel + 1, st =>
    if true then whileTrue m E num_rom step_size fuel (pass m E num_rom step_size st)
    else some st

end Rom

/-! ## Initial placement of the single-process program -/

/-- The trigonometric functions of the C math library and the Chrono constants `CH_C_PI`,
`CH_C_PI_2`, `CH_C_2PI` used for the initial placement. -/
structure Trig (α : Type) where
  /-- C `cos` -/
  cos : α → α
  /-- C `sin` -/
  sin : α → α
  CH_C_PI : α
  CH_C_PI_2 : α
  CH_C_2PI : α

namespace Rom

/-- Line 155: `float deg_sec = (CH_C_PI * 1.0) / (num_rom);`. -/
def deg_sec (t : Trig α) (num_rom : Nat) : α := (t.CH_C_PI * 1.0) / (num_rom : α)

/-- Lines 156-157: the initial position of vehicle `i`,
`ChVector<>(50.0 * cos(deg_sec * i), 50.0 * sin(deg_sec * i), 0.5)`. -/
def initLoc (t : Trig α) (num_rom i : Nat) : ChVector α :=
  ⟨50.0 * t.cos (deg_sec t num_rom * (i : α)), 50.0 * t.sin (deg_sec t num_rom * (i : α)), 0.5⟩

/-- Lines 158-161: the initial heading of vehicle `i`, `deg_sec * i + CH_C_PI_2`, reduced by
`CH_C_2PI` when it exceeds it. -/
def rot_deg (t : Trig α) (num_rom i : Nat) : α :=
  let rot_deg := deg_sec t num_rom * (i : α) + t.CH_C_PI_2
  if rot_deg > t.CH_C_2PI then rot_deg - t.CH_C_2PI else rot_deg

end Rom

/-! ## Doubles with their special values

The controller once more, lines 47-68 of `Synchronize`, on values that are a number, `+inf`,
`-inf` or `NaN`, with the IEEE 754 rules for the special values and the C99 rules (Annex F) for
`sqrt` and `pow`.  Rounding, overflow and the sign of zero stay out of the model. -/

/-- A `double` up to rounding: a number, `+inf`, `-inf` or `NaN`. -/
inductive Dbl (α : Type) where
  | num (x : α)
  | pinf
  | ninf
  | nan

namespace Dbl

/-- Unary minus of doubles. -/
def neg : Dbl α → Dbl α
  | num a => num (-a)
  | pinf => ninf
  | ninf => pinf
  | nan => nan

/-- Sum of doubles: `inf + (-inf)` and every sum with a `NaN` are `NaN`. -/
def add : Dbl α → Dbl α → Dbl α
  | num a, num b => num (a + b)
  | num _, pinf => pinf
  | num _, ninf => ninf
  | num _, nan => nan
  | pinf, num _ => pinf
  | pinf, pinf => pinf
  | pinf, ninf => nan
  | pinf, nan => nan
  | ninf, num _ => ninf
  | ninf, pinf => nan
  | ninf, ninf => ninf
  | ninf, nan => nan
  | nan, _ => nan

/-- Difference of doubles, `a + (-b)`. -/
def sub (a b : Dbl α) : Dbl α := add a (neg b)

/-- Product of doubles: `0 * inf` and every product with a `NaN` are `NaN`. -/
def mul : Dbl α → Dbl α → Dbl α
  | num a, num b => num (a * b)
  | num a, pinf => if a = 0 then nan else if 0 < a then pinf else ninf
  | num a, ninf => if a = 0 then nan else if 0 < a then ninf else pinf
  | num _, nan => nan
  | pinf, num b => if b = 0 then nan else if 0 < b then pinf else ninf
  | pinf, pinf => pinf
  | pinf, ninf => ninf
  | pinf, nan => nan
  | ninf, num b => if b = 0 then nan else if 0 < b then ninf else pinf
  | ninf, pinf => ninf
  | ninf, ninf => pinf
  | ninf, nan => nan
  | nan, _ => nan

/-- Quotient of doubles: a non-zero number over `0` is an infinity of its sign, `0 / 0` and
`inf / inf` are `NaN`, a number over an infinity is `0`. -/
def div : Dbl α → Dbl α → Dbl α
  | num a, num b =>
    if b ≠ 0 then num (a / b) else if a = 0 then nan else if 0 < a then pinf else ninf
  | num _, pinf => num 0
  | num _, ninf => num 0
  | num _, nan => nan
  | pinf, num b => if 0 ≤ b then pinf else ninf
  | pinf, pinf => nan
  | pinf, ninf => nan
  | pinf, nan => nan
  | ninf, num b => if 0 ≤ b then ninf else pinf
  | ninf, pinf => nan
  | ninf, ninf => nan
  | ninf, nan => nan
  | nan, _ => nan

/-- The comparison `a < b` of doubles: false as soon as one side is `NaN`. -/
def lt : Dbl α → Dbl α → Bool
  | num a, num b => decide (a < b)
  | num _, pinf => true
  | num _, ninf => false
  | num _, nan => false
  | pinf, _ => false
  | ninf, num _ => true
  | ninf, pinf => true
  | ninf, ninf => false
  | ninf, nan => false
  | nan, _ => false

/-- The comparison `a <= b` of doubles: false as soon as one side is `NaN`. -/
def le : Dbl α → Dbl α → Bool
  | num a, num b => decide (a ≤ b)
  | num _, pinf => true
  | num _, ninf => false
  | num _, nan => false
  | pinf, num _ => false
  | pinf, pinf => true
  | pinf, ninf => false
  | pinf, nan => false
  | ninf, num _ => true
  | ninf, pinf => true
  | ninf, ninf => true
  | ninf, nan => false
  | nan, _ => false

instance : Neg (Dbl α) := ⟨neg⟩

instance : Add (Dbl α) := ⟨add⟩

instance : Sub (Dbl α) := ⟨sub⟩

instance : Mul (Dbl α) := ⟨mul⟩

instance : Div (Dbl α) := ⟨div⟩

/-- C99 `sqrt` on doubles: `NaN` below `0`, the library's value on a number `≥ 0`. -/
def sqrt (m : Libm α) : Dbl α → Dbl α
  | num a => if a < 0 then nan else num (m.sqrt a)
  | pinf => pinf
  | ninf => nan
  | nan => nan

/-- Whether a number is an integer. -/
def isInt [FloorRing α] (b : α) : Bool := decide (((⌊b⌋ : Int) : α) = b)

/-- Whether a number is an odd integer. -/
def isOdd [FloorRing α] (b : α) : Bool := isInt b && decide ((⌊b⌋ : Int) % 2 = 1)

/-- C99 `pow(x, y)` on doubles (Annex F.9.4.4): `1` for `y = 0` and for `x = 1` whatever the
other argument; `NaN` for a negative number with a non-integer exponent; an infinity for `0`
with a negative exponent; the limits at the infinities; `NaN` for any other `NaN` argument; the
library's value otherwise. -/
def pow [FloorRing α] (m : Libm α) : Dbl α → Dbl α → Dbl α
  | x, num b =>
    if b = 0 then num 1
    else
      match x with
      | num a =>
        if a = 1 then num 1
        else if a = 0 then (if b < 0 then pinf else num 0)
        else if a < 0 then (if isInt b then num (m.pow a b) else nan)
        else num (m.pow a b)
      | pinf => if b < 0 then num 0 else pinf
      | ninf => if b < 0 then num 0 else if isOdd b then ninf else pinf
      | nan => nan
  | num a, pinf => if a = 1 ∨ a = -1 then num 1 else if |a| < 1 then num 0 else pinf
  | pinf, pinf => pinf
  | ninf, pinf => pinf
  | nan, pinf => nan
  | num a, ninf => if a = 1 ∨ a = -1 then num 1 else if |a| < 1 then pinf else num 0
  | pinf, ninf => num 0
  | ninf, ninf => num 0
  | nan, ninf => nan
  | num a, nan => if a = 1 then num 1 else nan
  | pinf, nan => nan
  | ninf, nan => nan
  | nan, nan => nan

/-- Chrono `ChMax(a, b)` on doubles: `if (a > b) return a; return b;`, so `b` is returned when
it is `NaN`. -/
def ChMax (a b : Dbl α) : Dbl α := if lt b a then a else b

end Dbl

namespace ChIDMFollower

/-- Local `s` of `Synchronize` (line 47) on doubles. -/
def sD (behavior_data : Fin 7 → Dbl α) (lead_distance : Dbl α) : Dbl α :=
  lead_distance - behavior_data 6

/-- Local `s_star` of `Synchronize` (lines 50-54) on doubles. -/
def s_starD [FloorRing α] (m : Libm α) (behavior_data : Fin 7 → Dbl α) (v lead_speed : Dbl α) :
    Dbl α :=
  let delta_v := v - lead_speed
  behavior_data 2 +
    Dbl.ChMax (.num 0) (v * behavior_data 1 +
      (v * delta_v) / (.num 2 * Dbl.sqrt m (behavior_data 3 * behavior_data 4)))

/-- Local `dv_dt` of `Synchronize` (lines 55-57) on doubles. -/
def dv_dtD [FloorRing α] (m : Libm α) (behavior_data : Fin 7 → Dbl α)
    (v lead_distance lead_speed : Dbl α) : Dbl α :=
  behavior_data 3 *
    (.num 1 - Dbl.pow m (v / behavior_data 0) (behavior_data 5)
       - Dbl.pow m (s_starD m behavior_data v lead_speed / sD behavior_data lead_distance)
          (.num 2))

/-- Line 60 of `Synchronize` on doubles: the integrated value `thero_speed + dv_dt * step`,
before the clamp. -/
def integratedD [FloorRing α] (m : Libm α) (behavior_data : Fin 7 → Dbl α)
    (thero_speed v step lead_distance lead_speed : Dbl α) : Dbl α :=
  thero_speed + dv_dtD m behavior_data v lead_distance lead_speed * step

/-- Lines 47-68 of `Synchronize` on doubles, from the prior `thero_speed`, the chassis speed `v`
and the arguments: the pair of the `thero_speed` stored by the call and of `v_ms`, the value
handed to `SetDesiredSpeed`.  (The odometer, lines 44-45, does not enter these lines.) -/
def SynchronizeD [FloorRing α] (m : Libm α) (behavior_data : Fin 7 → Dbl α)
    (thero_speed v step lead_distance lead_speed : Dbl α) : Dbl α × Dbl α :=
  let thero_speed := integratedD m behavior_data thero_speed v step lead_distance lead_speed
  let v_ms := Dbl.ChMax (.num 0) thero_speed
  let thero_speed := if Dbl.lt thero_speed (.num 0) then .num 0 else thero_speed
  (thero_speed, v_ms)

end ChIDMFollower

/-- Behaviour parameters `(v0, T, s0, a, b, delta, gapOffset)` with the non-integer exponent
`delta = 0.5`, for a run of the controller outside the domain of `pow`. -/
def rootParam : Fin 7 → α :=
  ![8, 1.5, 2, 2, 2, 0.5, 4.5]

/-! ## Auxiliary facts -/

theorem followerParam_0 : (followerParam : Fin 7 → α) 0 = 8.9408 := rfl
theorem followerParam_1 : (followerParam : Fin 7 → α) 1 = 1.5 := rfl
theorem followerParam_2 : (followerParam : Fin 7 → α) 2 = 2.0 := rfl
theorem followerParam_3 : (followerParam : Fin 7 → α) 3 = 2.0 := rfl
theorem followerParam_4 : (followerParam : Fin 7 → α) 4 = 2.0 := rfl
theorem followerParam_5 : (followerParam : Fin 7 → α) 5 = 4.0 := rfl
theorem followerParam_6 : (followerParam : Fin 7 → α) 6 = 4.8895 := rfl

theorem ChMax_eq_max (a b : α) : ChMax a b = max a b := by
  unfold ChMax
  split_ifs with h
  · exact (max_eq_left h.le).symm
  · exact (max_eq_right (not_lt.mp h)).symm

theorem clamp_eq_max (x : α) : (if x < 0 then 0 else x) = max 0 x := by
  split_ifs with h
  · exact (max_eq_left h.le).symm
  · exact (max_eq_right (not_lt.mp h)).symm

theorem Synchronize_thero_speed (m : Libm α) (self : ChIDMFollower α) (veh : Chassis α)
    (time step lead_distance lead_speed : α) :
    (self.Synchronize m veh time step lead_distance lead_speed).thero_speed =
      max 0 (self.thero_speed +
        self.dv_dt m veh.GetSpeed lead_distance lead_speed * step) := by
  simp only [ChIDMFollower.Synchronize, clamp_eq_max]

theorem Synchronize_desiredSpeed (m : Libm α) (self : ChIDMFollower α) (veh : Chassis α)
    (time step lead_distance lead_speed : α) :
    (self.Synchronize m veh time step lead_distance lead_speed).desiredSpeed =
      max 0 (self.thero_speed +
        self.dv_dt m veh.GetSpeed lead_distance lead_speed * step) := by
  simp only [ChIDMFollower.Synchronize, ChMax_eq_max]

/-- Over `ℝ`, with `Real.sqrt` and real powers, `dv_dt` is the IDM law written with a square. -/
theorem dv_dt_real (self : ChIDMFollower ℝ) (v lead_distance lead_speed : ℝ) :
    self.dv_dt ⟨Real.sqrt, fun x y => x ^ y, Real.arccos⟩ v lead_distance lead_speed =
      self.behavior_data 3 *
        (1 - (v / self.behavior_data 0) ^ self.behavior_data 5
           - ((self.behavior_data 2 + max 0 (v * self.behavior_data 1 +
                v * (v - lead_speed) /
                  (2 * Real.sqrt (self.behavior_data 3 * self.behavior_data 4))))
              / (lead_distance - self.behavior_data 6)) ^ 2) := by
  simp only [ChIDMFollower.dv_dt, ChIDMFollower.s_star, ChIDMFollower.s, ChMax_eq_max]
  rw [show ((2 : ℝ)) = ((2 : ℕ) : ℝ) by norm_num, Real.rpow_natCast]

/-- The two-sided clamp written with `if` is `max (-1) (min 1 t)`. -/
theorem clamp_if_eq (t : α) :
    (if t > 1 then 1 else if t < -1 then -1 else t) = max (-1) (min 1 t) := by
  split_ifs with h1 h2
  · rw [min_eq_left h1.le, max_eq_right (by linarith)]
  · have : t ≤ 1 := by linarith
    rw [min_eq_right this, max_eq_left h2.le]
  · rw [min_eq_right (not_lt.mp h1), max_eq_right (not_lt.mp h2)]

/-- Over `ℝ`, the gap computed by a rank of the distributed ring program. -/
theorem Ring_act_dis_real (r : Ring.Rank ℝ) :
    (Ring.syncArgs ⟨Real.sqrt, fun x y => x ^ y, Real.arccos⟩ r).1 =
      25 * |Real.arccos (max (-1) (min 1 (1 -
        Real.sqrt ((r.my_vehicle.GetPos.x - r.all_x ((r.node_id + 1) % r.num_nodes)) ^ 2 +
          (r.my_vehicle.GetPos.y - r.all_y ((r.node_id + 1) % r.num_nodes)) ^ 2) ^ 2
          / (2 * 25 ^ 2))))| := by
  simp only [Ring.syncArgs, Ring.act_dis, Ring.theta, Ring.temp, Ring.raw_dis, Ring.lead_idx,
    clamp_if_eq]
  norm_num [pow_two, mul_comm]

/-- Over `ℝ`, the gap computed for agent `i` by the single-process ring program. -/
theorem Rom_act_dis_real (rom_vec : Nat → Rom.Ch_8DOF_vehicle ℝ) (num_rom i : Nat) :
    (Rom.syncArgs ⟨Real.sqrt, fun x y => x ^ y, Real.arccos⟩ rom_vec num_rom i).1 =
      50 * |Real.arccos (max (-1) (min 1 (1 -
        Real.sqrt (((rom_vec ((i + 1) % num_rom)).GetPos.x - (rom_vec i).GetPos.x) ^ 2 +
          ((rom_vec ((i + 1) % num_rom)).GetPos.y - (rom_vec i).GetPos.y) ^ 2 +
          ((rom_vec ((i + 1) % num_rom)).GetPos.z - (rom_vec i).GetPos.z) ^ 2) ^ 2
          / (2 * 50 ^ 2))))| := by
  simp only [Rom.syncArgs, Rom.act_dis, Rom.theta, Rom.temp, Rom.raw_dis, Rom.ld_idx,
    ChVector.Length, ChVector.sub, clamp_if_eq]
  norm_num [pow_two, mul_comm]

/-- Chord to arc on a circle of radius `R`: for two points at angles `φ` and `ψ` whose angular
distance is at most `π`, the ring formula applied to the square `q` of their chord gives the arc
`R * |ψ - φ|`. -/
theorem arc_of_chord (R : ℝ) (hR : 0 < R) (φ ψ q : ℝ) (h : |ψ - φ| ≤ Real.pi)
    (hq : q = (R * Real.cos φ - R * Real.cos ψ) ^ 2 + (R * Real.sin φ - R * Real.sin ψ) ^ 2) :
    R * |Real.arccos (max (-1) (min 1 (1 - Real.sqrt q ^ 2 / (2 * R ^ 2))))| = R * |ψ - φ| := by
  have hq' : q = 2 * R ^ 2 * (1 - Real.cos (ψ - φ)) := by
    rw [hq, Real.cos_sub]
    nlinarith [Real.sin_sq_add_cos_sq φ, Real.sin_sq_add_cos_sq ψ]
  have hq0 : 0 ≤ q := by rw [hq]; positivity
  have hR2 : (2 * R ^ 2) ≠ 0 := by positivity
  have ht : 1 - Real.sqrt q ^ 2 / (2 * R ^ 2) = Real.cos |ψ - φ| := by
    rw [Real.sq_sqrt hq0, hq', Real.cos_abs]
    field_simp
  rw [ht, min_eq_right (Real.cos_le_one _), max_eq_right (Real.neg_one_le_cos _),
    Real.arccos_cos (abs_nonneg _) h, abs_abs]

theorem sampleTick_zero :
    (Rom.sampleTick 0 : Rom.Ch_8DOF_vehicle ℝ) = ⟨⟨50, 0, 0.5⟩, ⟨0, 5, 0⟩⟩ := by
  simp only [Rom.sampleTick]
  norm_num

theorem sampleTick_last :
    (Rom.sampleTick 18 : Rom.Ch_8DOF_vehicle ℝ) = ⟨⟨0, 50, 0.5⟩, ⟨-5, 0, 0⟩⟩ := by
  simp only [Rom.sampleTick]
  norm_num

/-! ### The `for` loop of the single-process program -/

section RomLoop

variable {I D : Type} (m : Libm α) (E : Rom.External α I D) (num_rom : Nat) (time step_size : α)

/-- The arguments computed for agent `i` only read `rom_vec[i]` and `rom_vec[ld_idx]`. -/
theorem Rom_syncArgs_congr (rv rv2 : Nat → Rom.Ch_8DOF_vehicle α) (i : Nat)
    (hi : rv i = rv2 i) (hl : rv (Rom.ld_idx i num_rom) = rv2 (Rom.ld_idx i num_rom)) :
    Rom.syncArgs m rv num_rom i = Rom.syncArgs m rv2 num_rom i := by
  simp only [Rom.syncArgs, Rom.raw_dis, hi, hl]

/-- Running the loop for agents `0..k` is running it for `0..k-1` and then the body for `k`. -/
theorem Rom_foldl_succ (w : Rom.World α I) (k : Nat) :
    (List.range (k + 1)).foldl (Rom.body m E num_rom time step_size) w =
      Rom.body m E num_rom time step_size
        ((List.range k).foldl (Rom.body m E num_rom time step_size) w) k := by
  rw [List.range_succ, List.foldl_append]
  rfl

/-- After the iterations for agents `0..k-1`, the vehicles `k, k+1, ...` are untouched. -/
theorem Rom_rom_vec_frame (w : Rom.World α I) (k j : Nat) (hkj : k ≤ j) :
    ((List.range k).foldl (Rom.body m E num_rom time step_size) w).rom_vec j = w.rom_vec j := by
  induction k with
  | zero => rfl
  | succ k ih =>
    rw [Rom_foldl_succ]
    have hne : j ≠ k := by omega
    simp only [Rom.body, Function.update_noteq hne]
    exact ih (by omega)

/-- After the iteration for agent `0`, vehicle `0` stays as that iteration left it. -/
theorem Rom_rom_vec_zero (w : Rom.World α I) (k : Nat) (hk : 1 ≤ k) :
    ((List.range k).foldl (Rom.body m E num_rom time step_size) w).rom_vec 0 =
      (Rom.body m E num_rom time step_size w 0).rom_vec 0 := by
  induction k with
  | zero => omega
  | succ k ih =>
    rw [Rom_foldl_succ]
    rcases Nat.eq_zero_or_pos k with h0 | hpos
    · subst h0
      rfl
    · have hne : (0 : Nat) ≠ k := by omega
      simp only [Rom.body, Function.update_noteq hne]
      exact ih hpos

/-- The calls recorded by the loop: the call for agent `i` is computed from the contents of
`rom_vec` left by the iterations for agents `0..i-1`. -/
theorem Rom_calls (w : Rom.World α I) (k : Nat) :
    ((List.range k).foldl (Rom.body m E num_rom time step_size) w).calls =
      w.calls ++ (List.range k).map (fun i => Rom.syncArgs m
        ((List.range i).foldl (Rom.body m E num_rom time step_size) w).rom_vec num_rom i) := by
  induction k with
  | zero => simp
  | succ k ih =>
    rw [Rom_foldl_succ]
    simp only [Rom.body, ih, List.range_succ, List.map_append, List.map_cons, List.map_nil,
      List.append_assoc]

/-- The call for agent `i` within a tick that starts with no call recorded. -/
theorem Rom_tickLoop_call (w : Rom.World α I) (hw : w.calls = []) (i : Nat) (hi : i < num_rom) :
    (Rom.tickLoop m E num_rom time step_size w).calls[i]? =
      some (Rom.syncArgs m
        ((List.range i).foldl (Rom.body m E num_rom time step_size) w).rom_vec num_rom i) := by
  rw [Rom.tickLoop, Rom_calls, hw, List.nil_append, List.getElem?_map, List.getElem?_range hi]
  rfl

/-- Every agent but the last is handed arguments computed from the start-of-tick state. -/
theorem Rom_tickLoop_call_inner (w : Rom.World α I) (hw : w.calls = []) (i : Nat)
    (hi : i + 1 < num_rom) :
    (Rom.tickLoop m E num_rom time step_size w).calls[i]? =
      some (Rom.syncArgs m w.rom_vec num_rom i) := by
  rw [Rom_tickLoop_call m E num_rom time step_size w hw i (by omega)]
  congr 1
  apply Rom_syncArgs_congr
  · exact Rom_rom_vec_frame m E num_rom time step_size w i i le_rfl
  · rw [Rom.ld_idx, Nat.mod_eq_of_lt hi]
    exact Rom_rom_vec_frame m E num_rom time step_size w i (i + 1) (by omega)

/-- The last agent (leader: agent `0`) is handed arguments computed from its own start-of-tick
state and the state of vehicle `0` after this tick's `Advance`. -/
theorem Rom_tickLoop_call_last (w : Rom.World α I) (hw : w.calls = []) (hN : 2 ≤ num_rom) :
    (Rom.tickLoop m E num_rom time step_size w).calls[num_rom - 1]? =
      some (Rom.syncArgs m
        (Function.update w.rom_vec 0 ((Rom.body m E num_rom time step_size w 0).rom_vec 0))
        num_rom (num_rom - 1)) := by
  rw [Rom_tickLoop_call m E num_rom time step_size w hw (num_rom - 1) (by omega)]
  congr 1
  have hld : Rom.ld_idx (num_rom - 1) num_rom = 0 := by
    rw [Rom.ld_idx, Nat.sub_add_cancel (by omega), Nat.mod_self]
  have hne : num_rom - 1 ≠ 0 := by omega
  apply Rom_syncArgs_congr
  · rw [Function.update_noteq hne]
    exact Rom_rom_vec_frame m E num_rom time step_size w _ _ le_rfl
  · rw [hld, Function.update_same]
    exact Rom_rom_vec_zero m E num_rom time step_size w _ (by omega)

end RomLoop

/-! ### Sequences of calls and the `while` loops -/

/-- The law reads the controller only through `behavior_data`. -/
theorem dv_dt_congr (m : Libm α) (c1 c2 : ChIDMFollower α)
    (h : c1.behavior_data = c2.behavior_data) (v lead_distance lead_speed : α) :
    c1.dv_dt m v lead_distance lead_speed = c2.dv_dt m v lead_distance lead_speed := by
  simp only [ChIDMFollower.dv_dt, ChIDMFollower.s_star, ChIDMFollower.s, h]

theorem call_behavior_data (m : Libm α) (self : ChIDMFollower α) (c : Call α) :
    (self.call m c).behavior_data = self.behavior_data := by
  cases c <;> rfl

theorem run_behavior_data (m : Libm α) (calls : List (Call α)) (self : ChIDMFollower α) :
    (self.run m calls).behavior_data = self.behavior_data := by
  induction calls generalizing self with
  | nil => rfl
  | cons c cs ih =>
    show ((self.call m c).run m cs).behavior_data = _
    rw [ih, call_behavior_data]

/-- A pass that is a full tick reads the system time and advances it by `dt`. -/
theorem Ring_pass_some (dt : α) (st st2 : Ring.Loop α) (h : Ring.pass dt st = some st2) :
    st2 = ⟨st.ChTime, st.ChTime + dt, st.step_number + 1⟩ := by
  simp only [Ring.pass] at h
  split_ifs at h
  exact (Option.some.inj h).symm

/-- Once the system time is past `sim_time`, at most one more tick is run. -/
theorem Ring_ticks_past (dt : α) (st : Ring.Loop α) (h : Ring.sim_time < st.ChTime) :
    ∃ n, Ring.ticks dt 2 st = some n := by
  cases hp : Ring.pass dt st with
  | none => exact ⟨0, by simp [Ring.ticks, hp]⟩
  | some st2 =>
    have h2 := Ring_pass_some dt st st2 hp
    have hp2 : Ring.pass dt st2 = none := by
      rw [h2]
      simp [Ring.pass, not_le.mpr h]
    exact ⟨1, by simp [Ring.ticks, hp, hp2]⟩

/-- When `k` time steps carry the system time past `sim_time`, the `while` loop of the
distributed program is left within `k + 2` passes. -/
theorem Ring_ticks_terminates (dt : α) (k : Nat) (st : Ring.Loop α)
    (h : Ring.sim_time - st.ChTime < k * dt) : ∃ n, Ring.ticks dt (k + 2) st = some n := by
  induction k generalizing st with
  | zero =>
    apply Ring_ticks_past
    simpa using h
  | succ k ih =>
    cases hp : Ring.pass dt st with
    | none => exact ⟨0, by simp [Ring.ticks, hp]⟩
    | some st2 =>
      have h2 := Ring_pass_some dt st st2 hp
      have hlt : Ring.sim_time - st2.ChTime < k * dt := by
        rw [h2]
        push_cast at h
        simp only
        linarith
      obtain ⟨n, hn⟩ := ih st2 hlt
      refine ⟨n + 1, ?_⟩
      rw [show k + 1 + 2 = (k + 2) + 1 by omega, Ring.ticks]
      simp only [hp, hn, Option.map_some']

/-- The loop `while (true)` of the single-process program is never left. -/
theorem Rom_whileTrue_none {I D : Type} (m : Libm α) (E : Rom.External α I D) (num_rom : Nat)
    (step_size : α) (fuel : Nat) (st : Rom.Loop α I) :
    Rom.whileTrue m E num_rom step_size fuel st = none := by
  induction fuel generalizing st with
  | zero => rfl
  | succ fuel ih =>
    rw [Rom.whileTrue]
    simp only [if_true]
    exact ih _

/-- After `n` passes of the single-process loop the local `time` has advanced by
`n * step_size`. -/
theorem Rom_pass_iterate_time {I D : Type} (m : Libm α) (E : Rom.External α I D) (num_rom : Nat)
    (step_size : α) (n : Nat) (st : Rom.Loop α I) :
    ((Rom.pass m E num_rom step_size)^[n] st).time = st.time + n * step_size := by
  induction n generalizing st with
  | zero => simp
  | succ n ih =>
    rw [Function.iterate_succ_apply, ih]
    simp only [Rom.pass]
    push_cast
    ring

/-! ### Repeated calls with the same arguments -/

theorem run_replicate_succ (m : Libm α) (self : ChIDMFollower α) (c : Call α) (n : Nat) :
    self.run m (List.replicate (n + 1) c) = (self.run m (List.replicate n c)).call m c := by
  rw [ChIDMFollower.run, List.replicate_succ', List.foldl_append]
  rfl

/-- Every further identical `Synchronize` call adds the same increment before the clamp. -/
theorem thero_replicate_succ (m : Libm α) (self : ChIDMFollower α) (veh : Chassis α)
    (time step lead_distance lead_speed : α) (n : Nat) :
    (self.run m (List.replicate (n + 1)
        (Call.Synchronize veh time step lead_distance lead_speed))).thero_speed =
      max 0 ((self.run m (List.replicate n
        (Call.Synchronize veh time step lead_distance lead_speed))).thero_speed +
        self.dv_dt m veh.GetSpeed lead_distance lead_speed * step) := by
  rw [run_replicate_succ]
  show (ChIDMFollower.Synchronize m _ veh time step lead_distance lead_speed).thero_speed = _
  rw [Synchronize_thero_speed, dv_dt_congr m _ self (run_behavior_data m _ self)]

/-- The speed handed to `SetDesiredSpeed` by a call is the `thero_speed` it stores. -/
theorem desired_replicate_succ (m : Libm α) (self : ChIDMFollower α) (veh : Chassis α)
    (time step lead_distance lead_speed : α) (n : Nat) :
    (self.run m (List.replicate (n + 1)
        (Call.Synchronize veh time step lead_distance lead_speed))).desiredSpeed =
      (self.run m (List.replicate (n + 1)
        (Call.Synchronize veh time step lead_distance lead_speed))).thero_speed := by
  rw [run_replicate_succ]
  show (ChIDMFollower.Synchronize m _ veh time step lead_distance lead_speed).desiredSpeed =
    (ChIDMFollower.Synchronize m _ veh time step lead_distance lead_speed).thero_speed
  rw [Synchronize_thero_speed, Synchronize_desiredSpeed]

/-- A clamped sum with non-positive increment, started at a non-negative value. -/
theorem clampSeq_nonpos (u : Nat → α) (d : α) (hu : ∀ n, u (n + 1) = max 0 (u n + d))
    (hd : d ≤ 0) (h0 : 0 ≤ u 0) (n : Nat) : u n = max 0 (u 0 + n * d) := by
  induction n with
  | zero => simp [h0]
  | succ n ih =>
    rw [hu, ih]
    push_cast
    rcases le_total 0 (u 0 + n * d) with h | h
    · rw [max_eq_right h]
      congr 1
      ring
    · rw [max_eq_left h, zero_add, max_eq_left hd, max_eq_left]
      linarith

/-- With the ring parameters, own and lead speed `10` and `lead_distance = 2π*25/3`, `dv_dt` lies
between `-1.398` and `-1.12`: at `v = 10 > v0 = 8.9408` the free-road term alone is negative. -/
theorem steady_dv_dt_bounds (dist thero desired : ℝ) (prev : ChVector ℝ) :
    -1.398 ≤ (ChIDMFollower.mk (followerParam : Fin 7 → ℝ) dist prev thero desired).dv_dt
        ⟨Real.sqrt, fun x y => x ^ y, Real.arccos⟩ 10 (2 * Real.pi * 25 / 3) 10 ∧
    (ChIDMFollower.mk (followerParam : Fin 7 → ℝ) dist prev thero desired).dv_dt
        ⟨Real.sqrt, fun x y => x ^ y, Real.arccos⟩ 10 (2 * Real.pi * 25 / 3) 10 ≤ -1.12 := by
  rw [dv_dt_real]
  simp only [followerParam_0, followerParam_1, followerParam_2, followerParam_3,
    followerParam_4, followerParam_5, followerParam_6]
  have hstar : (2.0 : ℝ) + max 0 (10 * 1.5 + 10 * (10 - 10) / (2 * Real.sqrt (2.0 * 2.0))) = 17 := by
    norm_num
  rw [hstar]
  have hp1 : (1.56 : ℝ) < (10 / 8.9408) ^ (4.0 : ℝ) := by norm_num
  have hp2 : (10 / 8.9408 : ℝ) ^ (4.0 : ℝ) < 1.57 := by norm_num
  have hpi := Real.pi_gt_d2
  have hs : (47.4 : ℝ) < 2 * Real.pi * 25 / 3 - 4.8895 := by linarith
  have hspos : (0 : ℝ) < 2 * Real.pi * 25 / 3 - 4.8895 := by linarith
  have hq0 : (0 : ℝ) ≤ 17 / (2 * Real.pi * 25 / 3 - 4.8895) := by positivity
  have hq1 : 17 / (2 * Real.pi * 25 / 3 - 4.8895) ≤ (0.359 : ℝ) := by
    rw [div_le_iff₀ hspos]
    linarith
  have hg0 : (0 : ℝ) ≤ (17 / (2 * Real.pi * 25 / 3 - 4.8895)) ^ 2 := by positivity
  have hg1 : (17 / (2 * Real.pi * 25 / 3 - 4.8895)) ^ 2 ≤ (0.129 : ℝ) := by nlinarith
  constructor <;> norm_num at hp1 hp2 hg0 hg1 ⊢ <;> linarith

/-- The steady-state run: `thero_speed` after `n` calls is `max(0, 10 + n*d)` with the constant
increment `d = dv_dt * 0.001` between `-0.001398` and `-0.00112`. -/
theorem steady_run (dist desired : ℝ) (prev : ChVector ℝ) (veh : Chassis ℝ)
    (hv : veh.GetSpeed = 10) (time : ℝ) (n : Nat) :
    ∃ d : ℝ, -0.001398 ≤ d ∧ d ≤ -0.00112 ∧
      ((ChIDMFollower.mk (followerParam : Fin 7 → ℝ) dist prev 10 desired).run
        ⟨Real.sqrt, fun x y => x ^ y, Real.arccos⟩ (List.replicate n
          (Call.Synchronize veh time (1 / 1000) (2 * Real.pi * 25 / 3) 10))).thero_speed =
        max 0 (10 + n * d) := by
  obtain ⟨h1, h2⟩ := steady_dv_dt_bounds dist 10 desired prev
  refine ⟨_, ?_, ?_, clampSeq_nonpos (fun k =>
    ((ChIDMFollower.mk (followerParam : Fin 7 → ℝ) dist prev 10 desired).run
      ⟨Real.sqrt, fun x y => x ^ y, Real.arccos⟩ (List.replicate k
        (Call.Synchronize veh time (1 / 1000) (2 * Real.pi * 25 / 3) 10))).thero_speed)
    ((ChIDMFollower.mk (followerParam : Fin 7 → ℝ) dist prev 10 desired).dv_dt
      ⟨Real.sqrt, fun x y => x ^ y, Real.arccos⟩ 10 (2 * Real.pi * 25 / 3) 10 * (1 / 1000))
    (fun k => by rw [← hv]; exact thero_replicate_succ _ _ veh time _ _ _ k) ?_ ?_ n⟩
  · norm_num at h1 ⊢
    linarith
  · norm_num at h2 ⊢
    linarith
  · norm_num at h2 ⊢
    linarith
  · simp [ChIDMFollower.run]

/-! ### The odometer along a sequence of calls -/

theorem call_dist_le (self : ChIDMFollower ℝ) (c : Call ℝ) :
    self.dist ≤ (self.call ⟨Real.sqrt, fun x y => x ^ y, Real.arccos⟩ c).dist := by
  cases c with
  | Synchronize veh time step lead_distance lead_speed =>
    simp only [ChIDMFollower.call, ChIDMFollower.Synchronize, ChVector.Length]
    exact le_add_of_nonneg_right (Real.sqrt_nonneg _)
  | Set_TheroSpeed x => exact le_rfl

theorem run_dist_le (calls : List (Call ℝ)) (self : ChIDMFollower ℝ) :
    self.dist ≤ (self.run ⟨Real.sqrt, fun x y => x ^ y, Real.arccos⟩ calls).dist := by
  induction calls generalizing self with
  | nil => exact le_rfl
  | cons c cs ih => exact le_trans (call_dist_le self c) (ih _)

theorem run_append_singleton (m : Libm α) (self : ChIDMFollower α) (calls : List (Call α))
    (c : Call α) : self.run m (calls ++ [c]) = (self.run m calls).call m c := by
  rw [ChIDMFollower.run, List.foldl_append]
  rfl

/-! ### Agents on the ring -/

/-- The gap of a rank of the distributed program whose vehicle and leader stand on the circle of
radius 25 at angles `φ` and `ψ` with `|ψ - φ| ≤ π`. -/
theorem Ring_gap_on_circle (r : Ring.Rank ℝ) (φ ψ : ℝ) (h : |ψ - φ| ≤ Real.pi)
    (hpx : r.my_vehicle.GetPos.x = 25 * Real.cos φ)
    (hpy : r.my_vehicle.GetPos.y = 25 * Real.sin φ)
    (hlx : r.all_x ((r.node_id + 1) % r.num_nodes) = 25 * Real.cos ψ)
    (hly : r.all_y ((r.node_id + 1) % r.num_nodes) = 25 * Real.sin ψ) :
    (Ring.syncArgs ⟨Real.sqrt, fun x y => x ^ y, Real.arccos⟩ r).1 = 25 * |ψ - φ| := by
  rw [Ring_act_dis_real, hpx, hpy, hlx, hly, arc_of_chord 25 (by norm_num) φ ψ _ h rfl]

/-- The gap of agent `i` of the single-process program when it and its leader stand on the circle
of radius 50 at the same height, at angles `φ` and `ψ` with `|ψ - φ| ≤ π`. -/
theorem Rom_gap_on_circle (rom_vec : Nat → Rom.Ch_8DOF_vehicle ℝ) (num_rom i : Nat)
    (φ ψ height : ℝ) (h : |ψ - φ| ≤ Real.pi)
    (hi : (rom_vec i).GetPos = ⟨50 * Real.cos φ, 50 * Real.sin φ, height⟩)
    (hl : (rom_vec ((i + 1) % num_rom)).GetPos = ⟨50 * Real.cos ψ, 50 * Real.sin ψ, height⟩) :
    (Rom.syncArgs ⟨Real.sqrt, fun x y => x ^ y, Real.arccos⟩ rom_vec num_rom i).1 =
      50 * |ψ - φ| := by
  rw [Rom_act_dis_real, hi, hl]
  simp only [sub_self]
  rw [arc_of_chord 50 (by norm_num) φ ψ _ h (by ring)]

/-- The clamped `temp` of the distributed program lies in `[-1, 1]`. -/
theorem Ring_temp_mem (raw_dis : α) : -1 ≤ Ring.temp raw_dis ∧ Ring.temp raw_dis ≤ 1 := by
  simp only [Ring.temp, clamp_if_eq]
  exact ⟨le_max_left _ _, max_le (by norm_num) (min_le_left _ _)⟩

/-- The clamped `temp` of the single-process program lies in `[-1, 1]`. -/
theorem Rom_temp_mem (raw_dis : α) : -1 ≤ Rom.temp raw_dis ∧ Rom.temp raw_dis ≤ 1 := by
  simp only [Rom.temp, clamp_if_eq]
  exact ⟨le_max_left _ _, max_le (by norm_num) (min_le_left _ _)⟩

/-- The successor modulo `N` on `0..N-1`. -/
theorem succ_mod_eq (N i : Nat) (hi : i < N) :
    (i + 1) % N = if i + 1 = N then 0 else i + 1 := by
  split_ifs with h
  · rw [h, Nat.mod_self]
  · exact Nat.mod_eq_of_lt (by omega)

/-- Every index below `N` is the successor modulo `N` of exactly one index below `N`. -/
theorem succ_mod_existsUnique (N k : Nat) (hk : k < N) :
    ∃! i, i < N ∧ (i + 1) % N = k := by
  refine ⟨if k = 0 then N - 1 else k - 1, ⟨?_, ?_⟩, ?_⟩
  · split_ifs <;> omega
  · rw [succ_mod_eq N _ (by split_ifs <;> omega)]
    split_ifs <;> omega
  · rintro j ⟨hj, hjk⟩
    rw [succ_mod_eq N j hj] at hjk
    split_ifs at hjk ⊢ <;> omega

/-- Over the reals, the initial position of vehicle `j` lies on the circle of radius 50 at the
angle `π / num_rom * j`, at height 0.5. -/
theorem initLoc_real (num_rom j : Nat) :
    Rom.initLoc ⟨Real.cos, Real.sin, Real.pi, Real.pi / 2, 2 * Real.pi⟩ num_rom j =
      ⟨50 * Real.cos (Real.pi / num_rom * j), 50 * Real.sin (Real.pi / num_rom * j), 0.5⟩ := by
  simp only [Rom.initLoc, Rom.deg_sec]
  norm_num

/-! ### Doubles with their special values -/

theorem rootParam_0 : (rootParam : Fin 7 → α) 0 = 8 := rfl
theorem rootParam_3 : (rootParam : Fin 7 → α) 3 = 2 := rfl
theorem rootParam_5 : (rootParam : Fin 7 → α) 5 = 0.5 := rfl
theorem rootParam_6 : (rootParam : Fin 7 → α) 6 = 4.5 := rfl

theorem Dbl_num_add (a b : α) : (Dbl.num a + Dbl.num b : Dbl α) = Dbl.num (a + b) := rfl

theorem Dbl_num_sub (a b : α) : (Dbl.num a - Dbl.num b : Dbl α) = Dbl.num (a - b) := by
  show Dbl.add (Dbl.num a) (Dbl.neg (Dbl.num b)) = _
  simp only [Dbl.neg, Dbl.add, sub_eq_add_neg]

theorem Dbl_num_mul (a b : α) : (Dbl.num a * Dbl.num b : Dbl α) = Dbl.num (a * b) := rfl

theorem Dbl_num_div (a b : α) (hb : b ≠ 0) :
    (Dbl.num a / Dbl.num b : Dbl α) = Dbl.num (a / b) := by
  show Dbl.div (Dbl.num a) (Dbl.num b) = _
  simp only [Dbl.div, if_pos hb]

theorem Dbl_nan_sub (x : Dbl α) : (Dbl.nan - x : Dbl α) = Dbl.nan := rfl

theorem Dbl_sub_nan (x : Dbl α) : (x - Dbl.nan : Dbl α) = Dbl.nan := by
  cases x <;> rfl

theorem Dbl_mul_nan (x : Dbl α) : (x * Dbl.nan : Dbl α) = Dbl.nan := by
  cases x <;> rfl

theorem Dbl_nan_mul (x : Dbl α) : (Dbl.nan * x : Dbl α) = Dbl.nan := rfl

theorem Dbl_add_nan (x : Dbl α) : (x + Dbl.nan : Dbl α) = Dbl.nan := by
  cases x <;> rfl

theorem Dbl_num_sub_pinf (a : α) : (Dbl.num a - Dbl.pinf : Dbl α) = Dbl.ninf := rfl

theorem Dbl_num_add_ninf (a : α) : (Dbl.num a + Dbl.ninf : Dbl α) = Dbl.ninf := rfl

theorem Dbl_num_mul_ninf (a : α) (ha : 0 < a) : (Dbl.num a * Dbl.ninf : Dbl α) = Dbl.ninf := by
  show Dbl.mul (Dbl.num a) Dbl.ninf = _
  simp only [Dbl.mul, if_neg ha.ne', if_pos ha]

theorem Dbl_ninf_mul_num (b : α) (hb : 0 < b) : (Dbl.ninf * Dbl.num b : Dbl α) = Dbl.ninf := by
  show Dbl.mul Dbl.ninf (Dbl.num b) = _
  simp only [Dbl.mul, if_neg hb.ne', if_pos hb]

theorem Dbl_sqrt_num (m : Libm α) (a : α) (ha : 0 ≤ a) :
    Dbl.sqrt m (Dbl.num a) = Dbl.num (m.sqrt a) := by
  simp only [Dbl.sqrt, if_neg (not_lt.mpr ha)]

theorem Dbl_ChMax_num (a b : α) :
    Dbl.ChMax (Dbl.num a) (Dbl.num b) = Dbl.num (ChMax a b) := by
  simp only [Dbl.ChMax, Dbl.lt, ChMax, decide_eq_true_eq, gt_iff_lt]
  split_ifs <;> rfl

/-- The clamp of lines 61-66 on a double: a number is clamped at `0`, `-inf` becomes `0`, `+inf`
and `NaN` pass through. -/
theorem SynchronizeD_cases [FloorRing α] (m : Libm α) (behavior_data : Fin 7 → Dbl α)
    (thero_speed v step lead_distance lead_speed : Dbl α) :
    (∀ x : α, ChIDMFollower.integratedD m behavior_data thero_speed v step lead_distance
        lead_speed = Dbl.num x →
      ChIDMFollower.SynchronizeD m behavior_data thero_speed v step lead_distance lead_speed =
        (Dbl.num (max 0 x), Dbl.num (max 0 x))) ∧
    (ChIDMFollower.integratedD m behavior_data thero_speed v step lead_distance
        lead_speed = Dbl.ninf →
      ChIDMFollower.SynchronizeD m behavior_data thero_speed v step lead_distance lead_speed =
        (Dbl.num 0, Dbl.num 0)) ∧
    (ChIDMFollower.integratedD m behavior_data thero_speed v step lead_distance
        lead_speed = Dbl.pinf →
      ChIDMFollower.SynchronizeD m behavior_data thero_speed v step lead_distance lead_speed =
        (Dbl.pinf, Dbl.pinf)) ∧
    (ChIDMFollower.integratedD m behavior_data thero_speed v step lead_distance
        lead_speed = Dbl.nan →
      ChIDMFollower.SynchronizeD m behavior_data thero_speed v step lead_distance lead_speed =
        (Dbl.nan, Dbl.nan)) := by
  refine ⟨fun x h => ?_, fun h => ?_, fun h => ?_, fun h => ?_⟩
  · simp only [ChIDMFollower.SynchronizeD, h, Dbl_ChMax_num, ChMax_eq_max, Dbl.lt,
      decide_eq_true_eq]
    split_ifs with hx
    · rw [max_eq_left hx.le]
    · rw [max_eq_right (not_lt.mp hx)]
  · simp [ChIDMFollower.SynchronizeD, h, Dbl.ChMax, Dbl.lt]
  · simp [ChIDMFollower.SynchronizeD, h, Dbl.ChMax, Dbl.lt]
  · simp [ChIDMFollower.SynchronizeD, h, Dbl.ChMax, Dbl.lt]

theorem isInt_two : Dbl.isInt (2 : ℝ) = true := by
  simp [Dbl.isInt]

theorem isInt_half : Dbl.isInt (0.5 : ℝ) = false := by
  simp only [Dbl.isInt, decide_eq_false_iff_not]
  intro h
  have h2 : ((2 * ⌊(0.5 : ℝ)⌋ : Int) : ℝ) = 1 := by
    push_cast
    rw [h]
    norm_num
  have h3 : 2 * ⌊(0.5 : ℝ)⌋ = 1 := by exact_mod_cast h2
  omega

/-- C99 `pow` on a number `≥ 0` with a positive exponent is the real power. -/
theorem Dbl_pow_num_nonneg (x y : ℝ) (hx : 0 ≤ x) (hy : 0 < y) :
    Dbl.pow ⟨Real.sqrt, fun x y => x ^ y, Real.arccos⟩ (Dbl.num x) (Dbl.num y) =
      Dbl.num (x ^ y) := by
  simp only [Dbl.pow, if_neg hy.ne']
  split_ifs with h1 h0 hneg hlt
  · rw [h1, Real.one_rpow]
  · exact absurd hneg (not_lt.mpr hy.le)
  · rw [h0, Real.zero_rpow hy.ne']
  · exact absurd hlt (not_lt.mpr hx)
  · exact absurd hlt (not_lt.mpr hx)
  · rfl

/-- C99 `pow(x, 2)` on a number is its square. -/
theorem Dbl_pow_num_two (x : ℝ) :
    Dbl.pow ⟨Real.sqrt, fun x y => x ^ y, Real.arccos⟩ (Dbl.num x) (Dbl.num 2) =
      Dbl.num (x ^ 2) := by
  have h2 : (2 : ℝ) ≠ 0 := by norm_num
  have hn : ¬ (2 : ℝ) < 0 := by norm_num
  simp only [Dbl.pow, if_neg h2, if_neg hn, isInt_two, if_true, Real.rpow_two]
  split_ifs with h1 h0
  · rw [h1, one_pow]
  · rw [h0]
    norm_num
  · rfl
  · rfl

/-- On numbers with `a*b > 0`, `s_star` on doubles is the number `s_star`. -/
theorem s_starD_num (self : ChIDMFollower ℝ) (v lead_speed : ℝ)
    (hab : 0 < self.behavior_data 3 * self.behavior_data 4) :
    ChIDMFollower.s_starD ⟨Real.sqrt, fun x y => x ^ y, Real.arccos⟩
        (fun k => Dbl.num (self.behavior_data k)) (Dbl.num v) (Dbl.num lead_speed) =
      Dbl.num (self.s_star ⟨Real.sqrt, fun x y => x ^ y, Real.arccos⟩ v lead_speed) := by
  have hsq : (2 : ℝ) * Real.sqrt (self.behavior_data 3 * self.behavior_data 4) ≠ 0 := by
    have := Real.sqrt_pos.mpr hab
    positivity
  simp only [ChIDMFollower.s_starD, ChIDMFollower.s_star, Dbl_num_sub, Dbl_num_mul,
    Dbl_sqrt_num _ _ hab.le, Dbl_num_div _ _ hsq, Dbl_num_add, Dbl_ChMax_num]

/-- On numbers inside the domain of the law (`v0 ≠ 0`, `a*b > 0`, `s ≠ 0`, `v/v0 ≥ 0`,
`delta > 0`), `dv_dt` on doubles is the number `dv_dt`. -/
theorem dv_dtD_num (self : ChIDMFollower ℝ) (v lead_distance lead_speed : ℝ)
    (hv0 : self.behavior_data 0 ≠ 0) (hab : 0 < self.behavior_data 3 * self.behavior_data 4)
    (hs : self.s lead_distance ≠ 0) (hp : 0 ≤ v / self.behavior_data 0)
    (hd : 0 < self.behavior_data 5) :
    ChIDMFollower.dv_dtD ⟨Real.sqrt, fun x y => x ^ y, Real.arccos⟩
        (fun k => Dbl.num (self.behavior_data k)) (Dbl.num v) (Dbl.num lead_distance)
        (Dbl.num lead_speed) =
      Dbl.num (self.dv_dt ⟨Real.sqrt, fun x y => x ^ y, Real.arccos⟩ v lead_distance
        lead_speed) := by
  have hs2 : lead_distance - self.behavior_data 6 ≠ 0 := hs
  simp only [ChIDMFollower.dv_dtD, s_starD_num self v lead_speed hab, ChIDMFollower.sD,
    Dbl_num_sub, Dbl_num_div _ _ hv0, Dbl_num_div _ _ hs2, Dbl_pow_num_nonneg _ _ hp hd,
    Dbl_pow_num_two, Dbl_num_mul, ChIDMFollower.dv_dt, ChIDMFollower.s]
  rw [show ((2 : ℝ)) = ((2 : ℕ) : ℝ) by norm_num, Real.rpow_natCast]

/-- On numbers inside the domain of the law the call on doubles gives the numbers of the call
on the reals. -/
theorem SynchronizeD_num (self : ChIDMFollower ℝ) (v step lead_distance lead_speed : ℝ)
    (hv0 : self.behavior_data 0 ≠ 0) (hab : 0 < self.behavior_data 3 * self.behavior_data 4)
    (hs : self.s lead_distance ≠ 0) (hp : 0 ≤ v / self.behavior_data 0)
    (hd : 0 < self.behavior_data 5) :
    ChIDMFollower.SynchronizeD ⟨Real.sqrt, fun x y => x ^ y, Real.arccos⟩
        (fun k => Dbl.num (self.behavior_data k)) (Dbl.num self.thero_speed) (Dbl.num v)
        (Dbl.num step) (Dbl.num lead_distance) (Dbl.num lead_speed) =
      (Dbl.num (max 0 (self.thero_speed +
          self.dv_dt ⟨Real.sqrt, fun x y => x ^ y, Real.arccos⟩ v lead_distance lead_speed *
            step)),
        Dbl.num (max 0 (self.thero_speed +
          self.dv_dt ⟨Real.sqrt, fun x y => x ^ y, Real.arccos⟩ v lead_distance lead_speed *
            step))) := by
  apply (SynchronizeD_cases _ _ _ _ _ _ _).1
  simp only [ChIDMFollower.integratedD, dv_dtD_num self v lead_distance lead_speed hv0 hab hs hp hd,
    Dbl_num_mul, Dbl_num_add]

/-- At usable gap `s = 0` with `s_star > 0`, `a > 0` and `step > 0` the quotient `s_star / s` is
`+inf`, `dv_dt` is `-inf` and the call stores and emits `0`. -/
theorem SynchronizeD_zero_gap (self : ChIDMFollower ℝ) (v step lead_distance lead_speed : ℝ)
    (hv0 : self.behavior_data 0 ≠ 0) (hab : 0 < self.behavior_data 3 * self.behavior_data 4)
    (hp : 0 ≤ v / self.behavior_data 0) (hd : 0 < self.behavior_data 5)
    (hs : self.s lead_distance = 0)
    (hstar : 0 < self.s_star ⟨Real.sqrt, fun x y => x ^ y, Real.arccos⟩ v lead_speed)
    (ha : 0 < self.behavior_data 3) (hstep : 0 < step) :
    ChIDMFollower.dv_dtD ⟨Real.sqrt, fun x y => x ^ y, Real.arccos⟩
        (fun k => Dbl.num (self.behavior_data k)) (Dbl.num v) (Dbl.num lead_distance)
        (Dbl.num lead_speed) = Dbl.ninf ∧
    ChIDMFollower.SynchronizeD ⟨Real.sqrt, fun x y => x ^ y, Real.arccos⟩
        (fun k => Dbl.num (self.behavior_data k)) (Dbl.num self.thero_speed) (Dbl.num v)
        (Dbl.num step) (Dbl.num lead_distance) (Dbl.num lead_speed) =
      (Dbl.num 0, Dbl.num 0) := by
  have hs2 : lead_distance - self.behavior_data 6 = 0 := hs
  have h2 : (2 : ℝ) ≠ 0 := by norm_num
  have hn : ¬ (2 : ℝ) < 0 := by norm_num
  have hq : (Dbl.num (self.s_star ⟨Real.sqrt, fun x y => x ^ y, Real.arccos⟩ v lead_speed) /
      Dbl.num (0 : ℝ) : Dbl ℝ) = Dbl.pinf := by
    show Dbl.div _ _ = _
    simp [Dbl.div, hstar.ne', hstar]
  have hdv : ChIDMFollower.dv_dtD ⟨Real.sqrt, fun x y => x ^ y, Real.arccos⟩
      (fun k => Dbl.num (self.behavior_data k)) (Dbl.num v) (Dbl.num lead_distance)
      (Dbl.num lead_speed) = Dbl.ninf := by
    simp only [ChIDMFollower.dv_dtD, s_starD_num self v lead_speed hab, ChIDMFollower.sD,
      Dbl_num_sub, hs2, hq, Dbl_num_div _ _ hv0, Dbl_pow_num_nonneg _ _ hp hd]
    simp only [Dbl.pow, if_neg h2, if_neg hn]
    rw [Dbl_num_sub_pinf, Dbl_num_mul_ninf _ ha]
  refine ⟨hdv, ?_⟩
  apply (SynchronizeD_cases _ _ _ _ _ _ _).2.1
  simp only [ChIDMFollower.integratedD, hdv]
  rw [Dbl_ninf_mul_num _ hstep, Dbl_num_add_ninf]

/-- At usable gap `s = 0` with `s_star = 0` the quotient `s_star / s` is `NaN` and the call
stores and emits `NaN`. -/
theorem SynchronizeD_zero_gap_nan (self : ChIDMFollower ℝ) (v step lead_distance lead_speed : ℝ)
    (hab : 0 < self.behavior_data 3 * self.behavior_data 4)
    (hs : self.s lead_distance = 0)
    (hstar : self.s_star ⟨Real.sqrt, fun x y => x ^ y, Real.arccos⟩ v lead_speed = 0) :
    ChIDMFollower.SynchronizeD ⟨Real.sqrt, fun x y => x ^ y, Real.arccos⟩
        (fun k => Dbl.num (self.behavior_data k)) (Dbl.num self.thero_speed) (Dbl.num v)
        (Dbl.num step) (Dbl.num lead_distance) (Dbl.num lead_speed) =
      (Dbl.nan, Dbl.nan) := by
  have hs2 : lead_distance - self.behavior_data 6 = 0 := hs
  have h2 : (2 : ℝ) ≠ 0 := by norm_num
  have hq : (Dbl.num (0 : ℝ) / Dbl.num (0 : ℝ) : Dbl ℝ) = Dbl.nan := by
    show Dbl.div _ _ = _
    simp [Dbl.div]
  apply (SynchronizeD_cases _ _ _ _ _ _ _).2.2.2
  simp only [ChIDMFollower.integratedD, ChIDMFollower.dv_dtD,
    s_starD_num self v lead_speed hab, ChIDMFollower.sD, Dbl_num_sub, hs2, hstar, hq]
  simp only [Dbl.pow, if_neg h2, Dbl_sub_nan, Dbl_mul_nan, Dbl_nan_mul, Dbl_add_nan]

/-! ## The IDM controller -/

/-- C1: over the reals, one call of `Synchronize` with usable gap
`s = lead_distance - behavior_data[6] ≠ 0` stores
`max(0, old + a*(1 - (v/v0)^delta - (s_star/s)^2)*step)` in `thero_speed`, where
`s_star = s0 + max(0, v*T + v*(v - lead_speed)/(2*sqrt(a*b)))`, and hands the same value to
`SetDesiredSpeed`. -/
theorem C1_synchronize_euler_clamp (self : ChIDMFollower ℝ) (veh : Chassis ℝ)
    (time step lead_distance lead_speed : ℝ)
    (hs : lead_distance - self.behavior_data 6 ≠ 0) :
    let v0 := self.behavior_data 0
    let T := self.behavior_data 1
    let s0 := self.behavior_data 2
    let a := self.behavior_data 3
    let b := self.behavior_data 4
    let delta := self.behavior_data 5
    let v := veh.GetSpeed
    let s := lead_distance - self.behavior_data 6
    let s_star := s0 + max 0 (v * T + v * (v - lead_speed) / (2 * Real.sqrt (a * b)))
    let new := max 0 (self.thero_speed + a * (1 - (v / v0) ^ delta - (s_star / s) ^ 2) * step)
    let after := self.Synchronize ⟨Real.sqrt, fun x y => x ^ y, Real.arccos⟩ veh time step
      lead_distance lead_speed
    after.thero_speed = new ∧ after.desiredSpeed = new := by
  have _ := hs
  intro v0 T s0 a b delta v s s_star new after
  refine ⟨?_, ?_⟩
  · rw [Synchronize_thero_speed, dv_dt_real]
  · rw [Synchronize_desiredSpeed, dv_dt_real]

/-- C1 at a concrete call: ring parameters, own and lead speed `v0 = 8.9408`, usable gap
`s = s_star = 15.4112`, so `dv_dt = -2` and `10` becomes `9.998` after a step of `0.001`. -/
theorem C1_synchronize_euler_clamp_witness :
    (20.3007 : ℝ) - (followerParam : Fin 7 → ℝ) 6 ≠ 0 ∧
    ((ChIDMFollower.mk followerParam 0 ⟨0, 0, 0⟩ 10 10).Synchronize
        ⟨Real.sqrt, fun x y => x ^ y, Real.arccos⟩ ⟨⟨0, 0, 0⟩, 8.9408⟩ 0 (1 / 1000) 20.3007
        8.9408).thero_speed = 9.998 ∧
    ((ChIDMFollower.mk followerParam 0 ⟨0, 0, 0⟩ 10 10).Synchronize
        ⟨Real.sqrt, fun x y => x ^ y, Real.arccos⟩ ⟨⟨0, 0, 0⟩, 8.9408⟩ 0 (1 / 1000) 20.3007
        8.9408).desiredSpeed = 9.998 := by
  have h : (20.3007 : ℝ) - (followerParam : Fin 7 → ℝ) 6 ≠ 0 := by
    norm_num [followerParam_6]
  have key := C1_synchronize_euler_clamp (ChIDMFollower.mk followerParam 0 ⟨0, 0, 0⟩ 10 10)
    ⟨⟨0, 0, 0⟩, 8.9408⟩ 0 (1 / 1000) 20.3007 8.9408 h
  have e : max (0 : ℝ) (10 + (followerParam : Fin 7 → ℝ) 3 *
      (1 - (8.9408 / (followerParam : Fin 7 → ℝ) 0) ^ (followerParam : Fin 7 → ℝ) 5
        - (((followerParam : Fin 7 → ℝ) 2 + max 0 (8.9408 * (followerParam : Fin 7 → ℝ) 1 +
            8.9408 * (8.9408 - 8.9408) /
              (2 * Real.sqrt ((followerParam : Fin 7 → ℝ) 3 * (followerParam : Fin 7 → ℝ) 4))))
          / (20.3007 - (followerParam : Fin 7 → ℝ) 6)) ^ 2) * (1 / 1000)) = 9.998 := by
    norm_num [followerParam_0, followerParam_1, followerParam_2, followerParam_3,
      followerParam_4, followerParam_5, followerParam_6]
  exact ⟨h, key.1.trans e, key.2.trans e⟩

/-- C2 fails as stated: with the ring parameters (`behavior_data[6] = 4.8895`), a vehicle at rest
behind a leader at rest and `lead_distance = 6.8895`, the gap that enters the law is `2`, not the
argument `6.8895`: the call keeps `thero_speed = 10` (`s = s_star = 2`, `dv_dt = 0`), whereas the law
evaluated with the argument itself as gap would raise it. -/
theorem C2_counterexample :
    (ChIDMFollower.mk (followerParam : Fin 7 → ℝ) 0 ⟨0, 0, 0⟩ 10 10).s 6.8895 ≠ 6.8895 ∧
    ((ChIDMFollower.mk followerParam 0 ⟨0, 0, 0⟩ 10 10).Synchronize
        ⟨Real.sqrt, fun x y => x ^ y, Real.arccos⟩ ⟨⟨0, 0, 0⟩, 0⟩ 0 1 6.8895 0).thero_speed ≠
      max 0 (10 + (followerParam : Fin 7 → ℝ) 3 *
        (1 - (0 / (followerParam : Fin 7 → ℝ) 0) ^ (followerParam : Fin 7 → ℝ) 5
          - (((followerParam : Fin 7 → ℝ) 2 + max 0 (0 * (followerParam : Fin 7 → ℝ) 1 +
              0 * (0 - 0) /
                (2 * Real.sqrt ((followerParam : Fin 7 → ℝ) 3 * (followerParam : Fin 7 → ℝ) 4))))
            / 6.8895) ^ 2) * 1) := by
  refine ⟨?_, ?_⟩
  · norm_num [ChIDMFollower.s, followerParam_6]
  · rw [Synchronize_thero_speed, dv_dt_real]
    norm_num [followerParam_0, followerParam_1, followerParam_2, followerParam_3,
      followerParam_4, followerParam_5, followerParam_6]

/-- C2 (amended): `Synchronize` treats its `lead_distance` argument as the raw distance and
subtracts `behavior_data[6]` itself.  The gap entering the law is
`lead_distance - behavior_data[6]`; it is the argument exactly when the offset is `0`; and a call
with raw distance `d` gives the same speeds as a call with distance `d - behavior_data[6]` on a
controller whose offset entry is `0`. -/
theorem C2_gap_is_argument_minus_offset (m : Libm α) (self : ChIDMFollower α)
    (veh : Chassis α) (time step lead_distance lead_speed : α) :
    self.s lead_distance = lead_distance - self.behavior_data 6 ∧
    (self.s lead_distance = lead_distance ↔ self.behavior_data 6 = 0) ∧
    (self.Synchronize m veh time step lead_distance lead_speed).thero_speed =
      (ChIDMFollower.Synchronize m
        { self with behavior_data := Function.update self.behavior_data 6 0 } veh time step
        (lead_distance - self.behavior_data 6) lead_speed).thero_speed ∧
    (self.Synchronize m veh time step lead_distance lead_speed).desiredSpeed =
      (ChIDMFollower.Synchronize m
        { self with behavior_data := Function.update self.behavior_data 6 0 } veh time step
        (lead_distance - self.behavior_data 6) lead_speed).desiredSpeed := by
  have hdv : self.dv_dt m veh.GetSpeed lead_distance lead_speed =
      ChIDMFollower.dv_dt m { self with behavior_data := Function.update self.behavior_data 6 0 }
        veh.GetSpeed (lead_distance - self.behavior_data 6) lead_speed := by
    simp [ChIDMFollower.dv_dt, ChIDMFollower.s_star, ChIDMFollower.s, Function.update]
  refine ⟨rfl, ?_, ?_, ?_⟩
  · simp [ChIDMFollower.s]
  · rw [Synchronize_thero_speed, Synchronize_thero_speed, hdv]
  · rw [Synchronize_desiredSpeed, Synchronize_desiredSpeed, hdv]

/-- C4 fails as stated: on doubles, with the parameters `rootParam` (`delta = 0.5`), prior
`thero_speed = 10`, chassis speed `-1`, lead speed `0`, step `0.001` and `lead_distance = 20.5`,
the usable gap is `16 > 0`, `pow(-0.125, 0.5)` is `NaN`, `ChMax(0.0, NaN)` returns `NaN` and
`NaN < 0` is false: the stored `thero_speed` and the emitted speed are both `NaN`, and
`0 <= NaN` is false. -/
theorem C4_counterexample :
    ChIDMFollower.sD (fun k => Dbl.num ((rootParam : Fin 7 → ℝ) k)) (Dbl.num 20.5) =
      Dbl.num 16 ∧
    ChIDMFollower.SynchronizeD ⟨Real.sqrt, fun x y => x ^ y, Real.arccos⟩
        (fun k => Dbl.num ((rootParam : Fin 7 → ℝ) k)) (Dbl.num 10) (Dbl.num (-1))
        (Dbl.num (1 / 1000)) (Dbl.num 20.5) (Dbl.num 0) = (Dbl.nan, Dbl.nan) ∧
    Dbl.le (Dbl.num (0 : ℝ)) Dbl.nan = false := by
  have h8 : (8 : ℝ) ≠ 0 := by norm_num
  have hpow : Dbl.pow ⟨Real.sqrt, fun x y => x ^ y, Real.arccos⟩ (Dbl.num ((-1 : ℝ) / 8))
      (Dbl.num (0.5 : ℝ)) = Dbl.nan := by
    have e1 : ¬ ((0.5 : ℝ) = 0) := by norm_num
    have e2 : ¬ ((-1 : ℝ) / 8 = 1) := by norm_num
    have e3 : ¬ ((-1 : ℝ) / 8 = 0) := by norm_num
    have e4 : (-1 : ℝ) / 8 < 0 := by norm_num
    simp only [Dbl.pow, if_neg e1, if_neg e2, if_neg e3, if_pos e4, isInt_half]
    rfl
  refine ⟨?_, ?_, rfl⟩
  · simp only [ChIDMFollower.sD, rootParam_6, Dbl_num_sub]
    norm_num
  · apply (SynchronizeD_cases _ _ _ _ _ _ _).2.2.2
    simp only [ChIDMFollower.integratedD, ChIDMFollower.dv_dtD, rootParam_0, rootParam_5,
      Dbl_num_div _ _ h8, hpow, Dbl_sub_nan, Dbl_nan_sub, Dbl_mul_nan, Dbl_nan_mul, Dbl_add_nan]

/-- C4 (amended): on doubles, for numbers as prior state and inputs with usable gap `s > 0`,
`v0 ≠ 0`, `a*b > 0`, `v/v0 ≥ 0` and `delta > 0` (a negative prior `thero_speed` included), the
stored `thero_speed` and the emitted speed are the same number `≥ 0`.  For arbitrary doubles:
when the integrated value `thero_speed + dv_dt*step` is not `NaN`, both outputs are `≥ 0`; when it
is `NaN`, both outputs are `NaN`. -/
theorem C4_speeds_nonneg_unless_nan (self : ChIDMFollower ℝ) (v step lead_distance lead_speed : ℝ)
    (hs : 0 < self.s lead_distance) (hv0 : self.behavior_data 0 ≠ 0)
    (hab : 0 < self.behavior_data 3 * self.behavior_data 4)
    (hp : 0 ≤ v / self.behavior_data 0) (hd : 0 < self.behavior_data 5) :
    (∃ x : ℝ, 0 ≤ x ∧
      ChIDMFollower.SynchronizeD ⟨Real.sqrt, fun x y => x ^ y, Real.arccos⟩
        (fun k => Dbl.num (self.behavior_data k)) (Dbl.num self.thero_speed) (Dbl.num v)
        (Dbl.num step) (Dbl.num lead_distance) (Dbl.num lead_speed) = (Dbl.num x, Dbl.num x)) ∧
    (∀ (bd : Fin 7 → Dbl ℝ) (t w st ld ls : Dbl ℝ),
      (ChIDMFollower.integratedD ⟨Real.sqrt, fun x y => x ^ y, Real.arccos⟩ bd t w st ld ls ≠
          Dbl.nan →
        Dbl.le (Dbl.num 0) (ChIDMFollower.SynchronizeD
          ⟨Real.sqrt, fun x y => x ^ y, Real.arccos⟩ bd t w st ld ls).1 = true ∧
        Dbl.le (Dbl.num 0) (ChIDMFollower.SynchronizeD
          ⟨Real.sqrt, fun x y => x ^ y, Real.arccos⟩ bd t w st ld ls).2 = true) ∧
      (ChIDMFollower.integratedD ⟨Real.sqrt, fun x y => x ^ y, Real.arccos⟩ bd t w st ld ls =
          Dbl.nan →
        ChIDMFollower.SynchronizeD ⟨Real.sqrt, fun x y => x ^ y, Real.arccos⟩ bd t w st ld ls =
          (Dbl.nan, Dbl.nan))) := by
  refine ⟨⟨_, le_max_left 0 _, SynchronizeD_num self v step lead_distance lead_speed hv0 hab
    hs.ne' hp hd⟩, fun bd t w st ld ls => ⟨fun hne => ?_, (SynchronizeD_cases _ _ _ _ _ _ _).2.2.2⟩⟩
  obtain ⟨h1, h2, h3, -⟩ := SynchronizeD_cases ⟨Real.sqrt, fun x y => x ^ y, Real.arccos⟩
    bd t w st ld ls
  cases hi : ChIDMFollower.integratedD ⟨Real.sqrt, fun x y => x ^ y, Real.arccos⟩
      bd t w st ld ls with
  | num x =>
    rw [h1 x hi]
    simp [Dbl.le]
  | pinf =>
    rw [h3 hi]
    simp [Dbl.le]
  | ninf =>
    rw [h2 hi]
    simp [Dbl.le]
  | nan => exact absurd hi hne

/-- C4 (amended) at a concrete call: ring parameters, prior `thero_speed = -3`, chassis speed
`5`, lead speed `3`, usable gap `2`, step `0.001`. -/
theorem C4_speeds_nonneg_unless_nan_witness :
    (0 < (ChIDMFollower.mk (followerParam : Fin 7 → ℝ) 0 ⟨0, 0, 0⟩ (-3) 0).s 6.8895 ∧
      (followerParam : Fin 7 → ℝ) 0 ≠ 0 ∧
      (0 : ℝ) < followerParam 3 * followerParam 4 ∧ (0 : ℝ) ≤ 5 / followerParam 0 ∧
      (0 : ℝ) < followerParam 5) ∧
    ∃ x : ℝ, 0 ≤ x ∧
      ChIDMFollower.SynchronizeD ⟨Real.sqrt, fun x y => x ^ y, Real.arccos⟩
        (fun k => Dbl.num ((followerParam : Fin 7 → ℝ) k)) (Dbl.num (-3)) (Dbl.num 5)
        (Dbl.num (1 / 1000)) (Dbl.num 6.8895) (Dbl.num 3) = (Dbl.num x, Dbl.num x) := by
  have h1 : 0 < (ChIDMFollower.mk (followerParam : Fin 7 → ℝ) 0 ⟨0, 0, 0⟩ (-3) 0).s 6.8895 := by
    norm_num [ChIDMFollower.s, followerParam_6]
  have h2 : (followerParam : Fin 7 → ℝ) 0 ≠ 0 := by norm_num [followerParam_0]
  have h3 : (0 : ℝ) < followerParam 3 * followerParam 4 := by
    norm_num [followerParam_3, followerParam_4]
  have h4 : (0 : ℝ) ≤ 5 / followerParam 0 := by norm_num [followerParam_0]
  have h5 : (0 : ℝ) < followerParam 5 := by norm_num [followerParam_5]
  exact ⟨⟨h1, h2, h3, h4, h5⟩,
    (C4_speeds_nonneg_unless_nan (ChIDMFollower.mk followerParam 0 ⟨0, 0, 0⟩ (-3) 0) 5
      (1 / 1000) 6.8895 3 h1 h2 h3 h4 h5).1⟩

/-- C5 fails as stated: there is no guard on `s`.  With the ring parameters, a vehicle at rest
behind a leader at rest and `lead_distance = 0.8895`, the usable gap is `s = -4 ≤ 0`, the division
`s_star / s = 2 / (-4)` is evaluated, `dv_dt = 3/2` is positive (no braking, no saturation) and
the emitted speed rises from `10` to `11.5` over a step of `1`. -/
theorem C5_counterexample :
    (ChIDMFollower.mk (followerParam : Fin 7 → ℝ) 0 ⟨0, 0, 0⟩ 10 10).s 0.8895 ≤ 0 ∧
    (ChIDMFollower.mk (followerParam : Fin 7 → ℝ) 0 ⟨0, 0, 0⟩ 10 10).dv_dt
        ⟨Real.sqrt, fun x y => x ^ y, Real.arccos⟩ 0 0.8895 0 = 3 / 2 ∧
    ((ChIDMFollower.mk followerParam 0 ⟨0, 0, 0⟩ 10 10).Synchronize
        ⟨Real.sqrt, fun x y => x ^ y, Real.arccos⟩ ⟨⟨0, 0, 0⟩, 0⟩ 0 1 0.8895 0).desiredSpeed
      = 11.5 := by
  have hd : (ChIDMFollower.mk (followerParam : Fin 7 → ℝ) 0 ⟨0, 0, 0⟩ 10 10).dv_dt
      ⟨Real.sqrt, fun x y => x ^ y, Real.arccos⟩ 0 0.8895 0 = 3 / 2 := by
    rw [dv_dt_real]
    norm_num [followerParam_0, followerParam_1, followerParam_2, followerParam_3,
      followerParam_4, followerParam_5, followerParam_6]
  refine ⟨?_, hd, ?_⟩
  · norm_num [ChIDMFollower.s, followerParam_6]
  · rw [Synchronize_desiredSpeed]
    simp only [hd]
    norm_num

/-- C5 (amended): there is no guard; the division `s_star / s` is evaluated for every gap.  On
doubles, for numbers as prior state and inputs with `v0 ≠ 0`, `a*b > 0`, `v/v0 ≥ 0` and
`delta > 0`: when `s < 0`, `dv_dt` is the number `a*(1 - (v/v0)^delta - (s_star/s)^2)` (no
saturation) and the emitted speed is the number `max(0, old + dv_dt*step)`; when `s = 0` and
`s_star > 0`, `a > 0`, `step > 0`, the quotient is `+inf`, `dv_dt` is `-inf` and the stored and
the emitted speed are the number `0`; when `s = 0` and `s_star = 0` the quotient is `NaN` and both
are `NaN`. -/
theorem C5_degenerate_gap_evaluated (self : ChIDMFollower ℝ)
    (v step lead_distance lead_speed : ℝ) (hv0 : self.behavior_data 0 ≠ 0)
    (hab : 0 < self.behavior_data 3 * self.behavior_data 4)
    (hp : 0 ≤ v / self.behavior_data 0) (hd : 0 < self.behavior_data 5) :
    (self.s lead_distance < 0 →
      ChIDMFollower.dv_dtD ⟨Real.sqrt, fun x y => x ^ y, Real.arccos⟩
          (fun k => Dbl.num (self.behavior_data k)) (Dbl.num v) (Dbl.num lead_distance)
          (Dbl.num lead_speed) =
        Dbl.num (self.behavior_data 3 *
          (1 - (v / self.behavior_data 0) ^ self.behavior_data 5 -
            (self.s_star ⟨Real.sqrt, fun x y => x ^ y, Real.arccos⟩ v lead_speed /
              self.s lead_distance) ^ 2)) ∧
      ChIDMFollower.SynchronizeD ⟨Real.sqrt, fun x y => x ^ y, Real.arccos⟩
          (fun k => Dbl.num (self.behavior_data k)) (Dbl.num self.thero_speed) (Dbl.num v)
          (Dbl.num step) (Dbl.num lead_distance) (Dbl.num lead_speed) =
        (Dbl.num (max 0 (self.thero_speed + self.behavior_data 3 *
            (1 - (v / self.behavior_data 0) ^ self.behavior_data 5 -
              (self.s_star ⟨Real.sqrt, fun x y => x ^ y, Real.arccos⟩ v lead_speed /
                self.s lead_distance) ^ 2) * step)),
          Dbl.num (max 0 (self.thero_speed + self.behavior_data 3 *
            (1 - (v / self.behavior_data 0) ^ self.behavior_data 5 -
              (self.s_star ⟨Real.sqrt, fun x y => x ^ y, Real.arccos⟩ v lead_speed /
                self.s lead_distance) ^ 2) * step)))) ∧
    (self.s lead_distance = 0 →
      0 < self.s_star ⟨Real.sqrt, fun x y => x ^ y, Real.arccos⟩ v lead_speed →
      0 < self.behavior_data 3 → 0 < step →
      ChIDMFollower.s_starD ⟨Real.sqrt, fun x y => x ^ y, Real.arccos⟩
          (fun k => Dbl.num (self.behavior_data k)) (Dbl.num v) (Dbl.num lead_speed) /
        ChIDMFollower.sD (fun k => Dbl.num (self.behavior_data k)) (Dbl.num lead_distance) =
          Dbl.pinf ∧
      ChIDMFollower.dv_dtD ⟨Real.sqrt, fun x y => x ^ y, Real.arccos⟩
          (fun k => Dbl.num (self.behavior_data k)) (Dbl.num v) (Dbl.num lead_distance)
          (Dbl.num lead_speed) = Dbl.ninf ∧
      ChIDMFollower.SynchronizeD ⟨Real.sqrt, fun x y => x ^ y, Real.arccos⟩
          (fun k => Dbl.num (self.behavior_data k)) (Dbl.num self.thero_speed) (Dbl.num v)
          (Dbl.num step) (Dbl.num lead_distance) (Dbl.num lead_speed) =
        (Dbl.num 0, Dbl.num 0)) ∧
    (self.s lead_distance = 0 →
      self.s_star ⟨Real.sqrt, fun x y => x ^ y, Real.arccos⟩ v lead_speed = 0 →
      ChIDMFollower.SynchronizeD ⟨Real.sqrt, fun x y => x ^ y, Real.arccos⟩
          (fun k => Dbl.num (self.behavior_data k)) (Dbl.num self.thero_speed) (Dbl.num v)
          (Dbl.num step) (Dbl.num lead_distance) (Dbl.num lead_speed) =
        (Dbl.nan, Dbl.nan)) := by
  have hlaw : self.dv_dt ⟨Real.sqrt, fun x y => x ^ y, Real.arccos⟩ v lead_distance
      lead_speed = self.behavior_data 3 *
        (1 - (v / self.behavior_data 0) ^ self.behavior_data 5 -
          (self.s_star ⟨Real.sqrt, fun x y => x ^ y, Real.arccos⟩ v lead_speed /
            self.s lead_distance) ^ 2) := by
    simp only [ChIDMFollower.dv_dt]
    rw [show ((2 : ℝ)) = ((2 : ℕ) : ℝ) by norm_num, Real.rpow_natCast]
  refine ⟨fun hneg => ?_, fun h0 hstar ha hstep => ?_, fun h0 hstar => ?_⟩
  · rw [← hlaw]
    exact ⟨dv_dtD_num self v lead_distance lead_speed hv0 hab hneg.ne hp hd,
      SynchronizeD_num self v step lead_distance lead_speed hv0 hab hneg.ne hp hd⟩
  · obtain ⟨hdv, hout⟩ := SynchronizeD_zero_gap self v step lead_distance lead_speed hv0 hab hp
      hd h0 hstar ha hstep
    refine ⟨?_, hdv, hout⟩
    have hs2 : lead_distance - self.behavior_data 6 = 0 := h0
    rw [s_starD_num self v lead_speed hab]
    simp only [ChIDMFollower.sD, Dbl_num_sub, hs2]
    show Dbl.div _ _ = _
    simp [Dbl.div, hstar.ne', hstar]
  · exact SynchronizeD_zero_gap_nan self v step lead_distance lead_speed hab h0 hstar

/-- C5 (amended) at concrete calls with the ring parameters, vehicle and leader at rest, prior
`thero_speed = 10`, step `1`: at usable gap `-4` (`lead_distance = 0.8895`) the call emits `11.5`;
at usable gap `0` (`lead_distance = 4.8895`) it emits `0`. -/
theorem C5_degenerate_gap_evaluated_witness :
    ((followerParam : Fin 7 → ℝ) 0 ≠ 0 ∧ (0 : ℝ) < followerParam 3 * followerParam 4 ∧
      (0 : ℝ) ≤ 0 / followerParam 0 ∧ (0 : ℝ) < followerParam 5) ∧
    ChIDMFollower.SynchronizeD ⟨Real.sqrt, fun x y => x ^ y, Real.arccos⟩
        (fun k => Dbl.num ((followerParam : Fin 7 → ℝ) k)) (Dbl.num 10) (Dbl.num 0)
        (Dbl.num 1) (Dbl.num 0.8895) (Dbl.num 0) = (Dbl.num 11.5, Dbl.num 11.5) ∧
    ChIDMFollower.SynchronizeD ⟨Real.sqrt, fun x y => x ^ y, Real.arccos⟩
        (fun k => Dbl.num ((followerParam : Fin 7 → ℝ) k)) (Dbl.num 10) (Dbl.num 0)
        (Dbl.num 1) (Dbl.num 4.8895) (Dbl.num 0) = (Dbl.num 0, Dbl.num 0) := by
  have h1 : (followerParam : Fin 7 → ℝ) 0 ≠ 0 := by norm_num [followerParam_0]
  have h2 : (0 : ℝ) < followerParam 3 * followerParam 4 := by
    norm_num [followerParam_3, followerParam_4]
  have h3 : (0 : ℝ) ≤ 0 / followerParam 0 := by norm_num
  have h4 : (0 : ℝ) < followerParam 5 := by norm_num [followerParam_5]
  have hstar : (ChIDMFollower.mk (followerParam : Fin 7 → ℝ) 0 ⟨0, 0, 0⟩ 10 10).s_star
      ⟨Real.sqrt, fun x y => x ^ y, Real.arccos⟩ 0 0 = 2 := by
    simp only [ChIDMFollower.s_star, ChMax_eq_max, followerParam_1, followerParam_2,
      followerParam_3, followerParam_4]
    norm_num
  have hA := (C5_degenerate_gap_evaluated (ChIDMFollower.mk followerParam 0 ⟨0, 0, 0⟩ 10 10)
    0 1 0.8895 0 h1 h2 h3 h4).1 (by norm_num [ChIDMFollower.s, followerParam_6])
  have hB := (C5_degenerate_gap_evaluated (ChIDMFollower.mk followerParam 0 ⟨0, 0, 0⟩ 10 10)
    0 1 4.8895 0 h1 h2 h3 h4).2.1 (by norm_num [ChIDMFollower.s, followerParam_6])
    (by rw [hstar]; norm_num) (by norm_num [followerParam_3]) (by norm_num)
  refine ⟨⟨h1, h2, h3, h4⟩, ?_, hB.2.2⟩
  have e : max (0 : ℝ) (10 + (followerParam : Fin 7 → ℝ) 3 *
      (1 - (0 / (followerParam : Fin 7 → ℝ) 0) ^ (followerParam : Fin 7 → ℝ) 5 -
        ((ChIDMFollower.mk (followerParam : Fin 7 → ℝ) 0 ⟨0, 0, 0⟩ 10 10).s_star
            ⟨Real.sqrt, fun x y => x ^ y, Real.arccos⟩ 0 0 /
          (ChIDMFollower.mk (followerParam : Fin 7 → ℝ) 0 ⟨0, 0, 0⟩ 10 10).s 0.8895) ^ 2) * 1) =
      11.5 := by
    rw [hstar]
    norm_num [ChIDMFollower.s, followerParam_0, followerParam_3, followerParam_5,
      followerParam_6]
  have hA2 := hA.2
  simp only [e] at hA2
  exact hA2

/-! ## The ring-neighbour protocol -/

/-- C3: in a tick of the distributed ring program, run with the parameters `followerParam`
(`behavior_data[6] = 4.8895`), the gap that enters the law is the arc distance to the leader,
computed from the own position and the gathered leader position, minus `4.8895`: the loop hands
the arc distance itself to `Synchronize`, which subtracts the offset once.  Over the reals the new
`thero_speed` is `max(0, old + a*(1 - (v/v0)^delta - (s_star/(arc - 4.8895))^2)*step_size)`. -/
theorem C3_ring_gap_offset_once (node_id num_nodes : Nat) (my_vehicle : Chassis ℝ)
    (all_x all_y all_speed : Nat → ℝ) (dist thero_speed desiredSpeed : ℝ)
    (previousPos : ChVector ℝ) (time step_size : ℝ) :
    let driver : ChIDMFollower ℝ := ⟨followerParam, dist, previousPos, thero_speed, desiredSpeed⟩
    let r : Ring.Rank ℝ := ⟨node_id, num_nodes, my_vehicle, all_x, all_y, all_speed, driver⟩
    let lead := (node_id + 1) % num_nodes
    let arc := 25 * |Real.arccos (max (-1) (min 1 (1 -
      Real.sqrt ((my_vehicle.GetPos.x - all_x lead) ^ 2 +
        (my_vehicle.GetPos.y - all_y lead) ^ 2) ^ 2 / (2 * 25 ^ 2))))|
    let v := my_vehicle.GetSpeed
    let s_star := 2 + max 0 (v * 1.5 + v * (v - all_speed lead) / (2 * Real.sqrt (2 * 2)))
    (Ring.syncArgs ⟨Real.sqrt, fun x y => x ^ y, Real.arccos⟩ r).1 = arc ∧
    driver.s (Ring.syncArgs ⟨Real.sqrt, fun x y => x ^ y, Real.arccos⟩ r).1 = arc - 4.8895 ∧
    (Ring.stepDriver ⟨Real.sqrt, fun x y => x ^ y, Real.arccos⟩ r time step_size).thero_speed =
      max 0 (thero_speed +
        2 * (1 - (v / 8.9408) ^ (4 : ℝ) - (s_star / (arc - 4.8895)) ^ 2) * step_size) := by
  intro driver r lead arc v s_star
  have harc : (Ring.syncArgs ⟨Real.sqrt, fun x y => x ^ y, Real.arccos⟩ r).1 = arc :=
    Ring_act_dis_real r
  refine ⟨harc, ?_, ?_⟩
  · rw [harc]
    simp only [ChIDMFollower.s, driver, followerParam_6]
  · rw [Ring.stepDriver, Synchronize_thero_speed, dv_dt_real, harc]
    simp only [driver, followerParam_0, followerParam_1, followerParam_2, followerParam_3,
      followerParam_4, followerParam_5, followerParam_6, r, Ring.syncArgs, Ring.lead_idx, lead,
      v, s_star]
    norm_num

/-- C6: over the reals, the gap handed to the controller is
`R * |acos(clamp(1 - raw^2/(2*R^2), -1, 1))|` with `raw` the Euclidean distance between the agent
and its leader: planar distance and `R = 25` for a rank of the distributed program, 3-D distance
and `R = 50` for agent `i` of the single-process program (on the current contents of
`rom_vec`). -/
theorem C6_gap_formula (r : Ring.Rank ℝ) (rom_vec : Nat → Rom.Ch_8DOF_vehicle ℝ)
    (num_rom i : Nat) :
    (Ring.syncArgs ⟨Real.sqrt, fun x y => x ^ y, Real.arccos⟩ r).1 =
      25 * |Real.arccos (max (-1) (min 1 (1 -
        Real.sqrt ((r.my_vehicle.GetPos.x - r.all_x ((r.node_id + 1) % r.num_nodes)) ^ 2 +
          (r.my_vehicle.GetPos.y - r.all_y ((r.node_id + 1) % r.num_nodes)) ^ 2) ^ 2
          / (2 * 25 ^ 2))))| ∧
    (Rom.syncArgs ⟨Real.sqrt, fun x y => x ^ y, Real.arccos⟩ rom_vec num_rom i).1 =
      50 * |Real.arccos (max (-1) (min 1 (1 -
        Real.sqrt (((rom_vec ((i + 1) % num_rom)).GetPos.x - (rom_vec i).GetPos.x) ^ 2 +
          ((rom_vec ((i + 1) % num_rom)).GetPos.y - (rom_vec i).GetPos.y) ^ 2 +
          ((rom_vec ((i + 1) % num_rom)).GetPos.z - (rom_vec i).GetPos.z) ^ 2) ^ 2
          / (2 * 50 ^ 2))))| :=
  ⟨Ring_act_dis_real r, Rom_act_dis_real rom_vec num_rom i⟩

/-- C7: chord to arc.  When the agent and its leader stand on the circle of radius `R` about the
origin (`R = 25` in the distributed program, `R = 50` and equal heights in the single-process
program) at angles `φ` and `ψ = φ ± θ` with `θ ∈ [0, π]`, the computed gap is the arc `R * θ`. -/
theorem C7_chord_to_arc (φ ψ θ : ℝ) (h0 : 0 ≤ θ) (hpi : θ ≤ Real.pi)
    (hψ : ψ = φ + θ ∨ ψ = φ - θ)
    (r : Ring.Rank ℝ)
    (hpx : r.my_vehicle.GetPos.x = 25 * Real.cos φ)
    (hpy : r.my_vehicle.GetPos.y = 25 * Real.sin φ)
    (hlx : r.all_x ((r.node_id + 1) % r.num_nodes) = 25 * Real.cos ψ)
    (hly : r.all_y ((r.node_id + 1) % r.num_nodes) = 25 * Real.sin ψ)
    (rom_vec : Nat → Rom.Ch_8DOF_vehicle ℝ) (num_rom i : Nat) (height : ℝ)
    (hi : (rom_vec i).GetPos = ⟨50 * Real.cos φ, 50 * Real.sin φ, height⟩)
    (hl : (rom_vec ((i + 1) % num_rom)).GetPos = ⟨50 * Real.cos ψ, 50 * Real.sin ψ, height⟩) :
    (Ring.syncArgs ⟨Real.sqrt, fun x y => x ^ y, Real.arccos⟩ r).1 = 25 * θ ∧
    (Rom.syncArgs ⟨Real.sqrt, fun x y => x ^ y, Real.arccos⟩ rom_vec num_rom i).1 = 50 * θ := by
  have habs : |ψ - φ| = θ := by
    rcases hψ with h | h
    · rw [h, add_sub_cancel_left, abs_of_nonneg h0]
    · rw [h, sub_sub_cancel_left, abs_neg, abs_of_nonneg h0]
  have hle : |ψ - φ| ≤ Real.pi := habs ▸ hpi
  constructor
  · rw [Ring_act_dis_real, hpx, hpy, hlx, hly,
      arc_of_chord 25 (by norm_num) φ ψ _ hle rfl, habs]
  · rw [Rom_act_dis_real, hi, hl]
    simp only [sub_self]
    rw [arc_of_chord 50 (by norm_num) φ ψ _ hle (by ring), habs]

/-- C7 at concrete positions: a quarter turn.  Distributed program: own vehicle at `(25, 0)`,
leader gathered at `(0, 25)`, gap `25 * (π/2)`.  Single-process program: agent 0 at
`(50, 0, 0.5)`, its leader at `(0, 50, 0.5)`, gap `50 * (π/2)`. -/
theorem C7_chord_to_arc_witness :
    (0 ≤ Real.pi / 2 ∧ Real.pi / 2 ≤ Real.pi) ∧
    (Ring.syncArgs ⟨Real.sqrt, fun x y => x ^ y, Real.arccos⟩
      (⟨0, 3, ⟨⟨25, 0, 0.5⟩, 0⟩, fun _ => 0, fun _ => 25, fun _ => 0,
        ⟨followerParam, 0, ⟨0, 0, 0⟩, 0, 0⟩⟩ : Ring.Rank ℝ)).1 = 25 * (Real.pi / 2) ∧
    (Rom.syncArgs ⟨Real.sqrt, fun x y => x ^ y, Real.arccos⟩
      (fun j => if j = 0 then (⟨⟨50, 0, 0.5⟩, ⟨0, 0, 0⟩⟩ : Rom.Ch_8DOF_vehicle ℝ)
        else ⟨⟨0, 50, 0.5⟩, ⟨0, 0, 0⟩⟩) 19 0).1 = 50 * (Real.pi / 2) := by
  have h0 : 0 ≤ Real.pi / 2 := by positivity
  have hpi : Real.pi / 2 ≤ Real.pi := by linarith [Real.pi_pos]
  exact ⟨⟨h0, hpi⟩,
    C7_chord_to_arc 0 (0 + Real.pi / 2) (Real.pi / 2) h0 hpi (Or.inl rfl)
      ⟨0, 3, ⟨⟨25, 0, 0.5⟩, 0⟩, fun _ => 0, fun _ => 25, fun _ => 0,
        ⟨followerParam, 0, ⟨0, 0, 0⟩, 0, 0⟩⟩
      (by simp) (by simp) (by simp) (by simp)
      (fun j => if j = 0 then ⟨⟨50, 0, 0.5⟩, ⟨0, 0, 0⟩⟩ else ⟨⟨0, 50, 0.5⟩, ⟨0, 0, 0⟩⟩) 19 0 0.5
      (by simp) (by simp)⟩

/-- C8: for `N ≥ 1` and agent `i < N`, the leader index used in a tick is `(i+1) mod N` in both
programs; it lies below `N`; and whatever the positions and speeds held in the tick, the values
handed to `Synchronize` are read at that index. -/
theorem C8_leader_index (m : Libm α) (N i : Nat) (hN : 1 ≤ N) (hi : i < N) :
    Ring.lead_idx i N = (i + 1) % N ∧ Ring.lead_idx i N < N ∧
    Rom.ld_idx i N = (i + 1) % N ∧ Rom.ld_idx i N < N ∧
    (∀ (my_vehicle : Chassis α) (all_x all_y all_speed : Nat → α) (driver : ChIDMFollower α),
      Ring.syncArgs m ⟨i, N, my_vehicle, all_x, all_y, all_speed, driver⟩ =
        (Ring.act_dis (Ring.theta m (Ring.temp
          (Ring.raw_dis m my_vehicle all_x all_y ((i + 1) % N)))), all_speed ((i + 1) % N))) ∧
    (∀ rom_vec : Nat → Rom.Ch_8DOF_vehicle α,
      Rom.syncArgs m rom_vec N i =
        (Rom.act_dis (Rom.theta m (Rom.temp (Rom.raw_dis m rom_vec i ((i + 1) % N)))),
          (rom_vec ((i + 1) % N)).GetVel.Length m)) := by
  have _ := hi
  have hpos : 0 < N := hN
  exact ⟨rfl, Nat.mod_lt _ hpos, rfl, Nat.mod_lt _ hpos, fun _ _ _ _ _ => rfl, fun _ => rfl⟩

/-- C8 at `N = 19`, `i = 18` (the size of the single-process ring): the leader of the last agent
is agent `0`. -/
theorem C8_leader_index_witness :
    (1 ≤ 19 ∧ 18 < 19) ∧ Ring.lead_idx 18 19 = 0 ∧ Rom.ld_idx 18 19 = 0 := by
  have h := C8_leader_index (⟨Real.sqrt, fun x y => x ^ y, Real.arccos⟩ : Libm ℝ) 19 18
    (by decide) (by decide)
  exact ⟨⟨by decide, by decide⟩, h.1.trans (by decide), h.2.2.1.trans (by decide)⟩

/-- C10: each call of `Synchronize` adds to `dist` the Euclidean distance between the current
chassis position and `previousPos`, then stores the current position in `previousPos`; `Get_Dist`
returns that sum; and neither depends on `time`, `step`, `lead_distance`, `lead_speed`, the chassis
speed, `thero_speed` or the behaviour parameters. -/
theorem C10_odometer (self : ChIDMFollower ℝ) (veh : Chassis ℝ)
    (time step lead_distance lead_speed : ℝ) :
    (self.Synchronize ⟨Real.sqrt, fun x y => x ^ y, Real.arccos⟩ veh time step lead_distance
        lead_speed).Get_Dist =
      self.Get_Dist + Real.sqrt ((veh.GetPos.x - self.previousPos.x) ^ 2 +
        (veh.GetPos.y - self.previousPos.y) ^ 2 + (veh.GetPos.z - self.previousPos.z) ^ 2) ∧
    (self.Synchronize ⟨Real.sqrt, fun x y => x ^ y, Real.arccos⟩ veh time step lead_distance
        lead_speed).previousPos = veh.GetPos ∧
    ∀ (behavior_data : Fin 7 → ℝ) (thero_speed time2 step2 lead_distance2 lead_speed2 speed2 : ℝ),
      (ChIDMFollower.Synchronize ⟨Real.sqrt, fun x y => x ^ y, Real.arccos⟩
          { self with behavior_data := behavior_data, thero_speed := thero_speed }
          ⟨veh.GetPos, speed2⟩ time2 step2 lead_distance2 lead_speed2).Get_Dist =
        (self.Synchronize ⟨Real.sqrt, fun x y => x ^ y, Real.arccos⟩ veh time step lead_distance
          lead_speed).Get_Dist ∧
      (ChIDMFollower.Synchronize ⟨Real.sqrt, fun x y => x ^ y, Real.arccos⟩
          { self with behavior_data := behavior_data, thero_speed := thero_speed }
          ⟨veh.GetPos, speed2⟩ time2 step2 lead_distance2 lead_speed2).previousPos =
        (self.Synchronize ⟨Real.sqrt, fun x y => x ^ y, Real.arccos⟩ veh time step lead_distance
          lead_speed).previousPos := by
  refine ⟨?_, rfl, fun _ _ _ _ _ _ _ => ⟨rfl, rfl⟩⟩
  simp only [ChIDMFollower.Synchronize, ChIDMFollower.Get_Dist, ChVector.Length, ChVector.sub,
    pow_two]

/-- C9, the loop at a concrete tick: 19 coasting vehicles in the state `sampleTick`, step `0.001`.
The call for the last agent (index 18 at `(0, 50, 0.5)`, leader 0) is handed the gap
`50 * |acos(0.000099995)|`, computed from vehicle 0 at `(50, 0.005, 0.5)`, its position after this
tick's `Advance`; the start-of-tick position `(50, 0, 0.5)` gives `50 * (π/2)`, and the two
differ. -/
theorem C9_last_agent_reads_advanced_leader :
    (Rom.tickLoop ⟨Real.sqrt, fun x y => x ^ y, Real.arccos⟩ (Rom.coasting (1 / 1000)) 19 0
        (1 / 1000) ⟨Rom.sampleTick, fun _ => (), []⟩).calls[18]? =
      some (50 * |Real.arccos 0.000099995|, (5 : ℝ)) ∧
    Rom.syncArgs ⟨Real.sqrt, fun x y => x ^ y, Real.arccos⟩ Rom.sampleTick 19 18 =
      (50 * (Real.pi / 2), (5 : ℝ)) ∧
    (50 * |Real.arccos 0.000099995| : ℝ) ≠ 50 * (Real.pi / 2) := by
  have h5 : Real.sqrt 25 = 5 := by
    rw [show (25 : ℝ) = 5 ^ 2 by norm_num]
    exact Real.sqrt_sq (by norm_num)
  have hld : (18 + 1) % 19 = 0 := rfl
  have hne : (18 : Nat) ≠ 0 := by decide
  refine ⟨?_, ?_, ?_⟩
  · rw [show (18 : Nat) = 19 - 1 from rfl,
      Rom_tickLoop_call_last _ _ 19 _ _ _ rfl (by decide)]
    congr 1
    refine Prod.ext ?_ ?_
    · rw [Rom_act_dis_real, Real.sq_sqrt (by positivity)]
      simp only [hld, Function.update_same, Function.update_noteq hne, Rom.body, Rom.coasting,
        Rom.coast, sampleTick_zero, sampleTick_last]
      norm_num
    · simp only [Rom.syncArgs, Rom.ld_idx, hld, Function.update_same, Rom.body, Rom.coasting,
        Rom.coast, sampleTick_zero, ChVector.Length]
      norm_num
      exact h5
  · refine Prod.ext ?_ ?_
    · rw [Rom_act_dis_real, Real.sq_sqrt (by positivity)]
      simp only [hld, sampleTick_zero, sampleTick_last]
      norm_num
      positivity
    · simp only [Rom.syncArgs, Rom.ld_idx, hld, sampleTick_zero, ChVector.Length]
      norm_num
      exact h5
  · rw [abs_of_nonneg (Real.arccos_nonneg _)]
    intro h
    have h2 : Real.arccos 0.000099995 = Real.pi / 2 := by linarith
    rw [Real.arccos_eq_pi_div_two] at h2
    norm_num at h2

/-! ## Frame conditions, configuration and termination -/

/-- C11: `dv_dt` is computed from the measured chassis speed and does not depend on the stored
`thero_speed` or on `time`: a controller that differs only in `thero_speed` gets the same `dv_dt`
(so the same unclamped increment `dv_dt * step`, added to its own `thero_speed`), and two calls
that differ only in `time` give the same controller. -/
theorem C11_dv_dt_independent_of_thero_speed_and_time (m : Libm α) (self : ChIDMFollower α)
    (veh : Chassis α) (time time2 step lead_distance lead_speed thero2 : α) :
    ChIDMFollower.dv_dt m { self with thero_speed := thero2 } veh.GetSpeed lead_distance
        lead_speed = self.dv_dt m veh.GetSpeed lead_distance lead_speed ∧
    (ChIDMFollower.Synchronize m { self with thero_speed := thero2 } veh time step
        lead_distance lead_speed).thero_speed =
      max 0 (thero2 + self.dv_dt m veh.GetSpeed lead_distance lead_speed * step) ∧
    self.Synchronize m veh time2 step lead_distance lead_speed =
      self.Synchronize m veh time step lead_distance lead_speed := by
  refine ⟨rfl, ?_, rfl⟩
  rw [Synchronize_thero_speed]
  rfl

/-- C12: `Synchronize` leaves all seven entries of `behavior_data` as they were, and so does
every sequence of `Synchronize` and `Set_TheroSpeed` calls. -/
theorem C12_behavior_data_unchanged (m : Libm α) (self : ChIDMFollower α) (veh : Chassis α)
    (time step lead_distance lead_speed : α) (calls : List (Call α)) :
    (∀ k : Fin 7, (self.Synchronize m veh time step lead_distance lead_speed).behavior_data k =
      self.behavior_data k) ∧
    (self.run m calls).behavior_data = self.behavior_data :=
  ⟨fun _ => rfl, run_behavior_data m calls self⟩

/-- C13 fails as stated: `main` of the distributed program never looks at `num_nodes` before the
loop.  With one rank (`node_id = 0`, `num_nodes = 1`) and the output directory created, the setup
reaches the loop, the first pass is a full tick, and in it the agent is its own leader:
`lead_idx = 0`, gap `0` and leader speed equal to its own gathered speed. -/
theorem C13_counterexample :
    (Ring.main_setup 0 1 true : Except Nat (Ring.Loop ℝ)) = .ok ⟨0, 0, 0⟩ ∧
    Ring.pass (1 / 1000 : ℝ) ⟨0, 0, 0⟩ = some ⟨0, 1 / 1000, 1⟩ ∧
    Ring.lead_idx 0 1 = 0 ∧
    Ring.syncArgs ⟨Real.sqrt, fun x y => x ^ y, Real.arccos⟩
      (⟨0, 1, ⟨⟨25, 0, 0.5⟩, 3⟩, fun _ => 25, fun _ => 0, fun _ => 3,
        ⟨followerParam, 0, ⟨25, 0, 0.5⟩, 0, 0⟩⟩ : Ring.Rank ℝ) = (0, 3) := by
  refine ⟨?_, ?_, rfl, ?_⟩
  · simp only [Ring.main_setup]
    norm_num
  · simp [Ring.pass, Ring.sim_time, Ring.t_end]
    norm_num
  · refine Prod.ext ?_ rfl
    rw [Ring_act_dis_real]
    norm_num

/-- C13 (amended): the setup of the distributed program does not depend on the number of ranks,
and the first pass of the loop is a full tick.  With a single rank, whose gathered arrays hold its
own position at index 0, the agent is its own leader in every tick: `lead_idx = node_id`, the
arc distance is `0`, and with the parameters `followerParam` the usable gap is `-4.8895`. -/
theorem C13_single_rank_is_own_leader (r : Ring.Rank ℝ) (dt : ℝ)
    (hN : r.num_nodes = 1) (hid : r.node_id < r.num_nodes)
    (hx : r.all_x 0 = r.my_vehicle.GetPos.x) (hy : r.all_y 0 = r.my_vehicle.GetPos.y)
    (hparams : r.driver.behavior_data = followerParam) :
    (∀ node_id num_nodes : Nat,
      (Ring.main_setup node_id num_nodes true : Except Nat (Ring.Loop ℝ)) = .ok ⟨0, 0, 0⟩) ∧
    Ring.pass dt ⟨0, 0, 0⟩ = some ⟨0, 0 + dt, 1⟩ ∧
    Ring.lead_idx r.node_id r.num_nodes = r.node_id ∧
    (Ring.syncArgs ⟨Real.sqrt, fun x y => x ^ y, Real.arccos⟩ r).1 = 0 ∧
    r.driver.s (Ring.syncArgs ⟨Real.sqrt, fun x y => x ^ y, Real.arccos⟩ r).1 = -4.8895 := by
  have h0 : r.node_id = 0 := by omega
  have harc : (Ring.syncArgs ⟨Real.sqrt, fun x y => x ^ y, Real.arccos⟩ r).1 = 0 := by
    rw [Ring_act_dis_real, hN, h0]
    simp [hx, hy]
  refine ⟨fun _ _ => by simp only [Ring.main_setup]; norm_num, ?_, ?_, harc, ?_⟩
  · simp [Ring.pass, Ring.sim_time, Ring.t_end]
    norm_num
  · rw [Ring.lead_idx, hN, h0]
  · rw [harc, ChIDMFollower.s, hparams, followerParam_6]
    norm_num

/-- C13 (amended) at a concrete rank: one vehicle at `(25, 0, 0.5)` driving at 3 m/s. -/
theorem C13_single_rank_is_own_leader_witness :
    ((1 : Nat) = 1 ∧ (0 : Nat) < 1) ∧
    (Ring.syncArgs ⟨Real.sqrt, fun x y => x ^ y, Real.arccos⟩
      (⟨0, 1, ⟨⟨25, 0, 0.5⟩, 3⟩, fun _ => 25, fun _ => 0, fun _ => 3,
        ⟨followerParam, 0, ⟨25, 0, 0.5⟩, 0, 0⟩⟩ : Ring.Rank ℝ)).1 = 0 ∧
    (ChIDMFollower.mk (followerParam : Fin 7 → ℝ) 0 ⟨25, 0, 0.5⟩ 0 0).s
      (Ring.syncArgs ⟨Real.sqrt, fun x y => x ^ y, Real.arccos⟩
        (⟨0, 1, ⟨⟨25, 0, 0.5⟩, 3⟩, fun _ => 25, fun _ => 0, fun _ => 3,
          ⟨followerParam, 0, ⟨25, 0, 0.5⟩, 0, 0⟩⟩ : Ring.Rank ℝ)).1 = -4.8895 := by
  have h := C13_single_rank_is_own_leader
    (⟨0, 1, ⟨⟨25, 0, 0.5⟩, 3⟩, fun _ => 25, fun _ => 0, fun _ => 3,
      ⟨followerParam, 0, ⟨25, 0, 0.5⟩, 0, 0⟩⟩ : Ring.Rank ℝ) (1 / 1000) rfl (by decide) rfl rfl
    rfl
  exact ⟨⟨rfl, by decide⟩, h.2.2.2.1, h.2.2.2.2⟩

/-- C14: with the constructor as the spec describes it, parameters with `v0 = 0` or `a*b ≤ 0` are
exactly those for which construction fails, and a controller that was constructed keeps
`v0 ≠ 0` and `a*b > 0` through every sequence of `Synchronize` and `Set_TheroSpeed` calls, so
that over the reals the divisors `v0` and `2*sqrt(a*b)` of `Synchronize` are never `0`. -/
theorem C14_invalid_parameters_fail_at_construction (params : Fin 7 → ℝ)
    (init c : ChIDMFollower ℝ) (h : ChIDMFollower.construct params init = some c)
    (calls : List (Call ℝ)) :
    (∀ (p : Fin 7 → ℝ) (i : ChIDMFollower ℝ),
      ChIDMFollower.construct p i = none ↔ (p 0 = 0 ∨ p 3 * p 4 ≤ 0)) ∧
    (c.run ⟨Real.sqrt, fun x y => x ^ y, Real.arccos⟩ calls).behavior_data 0 ≠ 0 ∧
    0 < (c.run ⟨Real.sqrt, fun x y => x ^ y, Real.arccos⟩ calls).behavior_data 3 *
      (c.run ⟨Real.sqrt, fun x y => x ^ y, Real.arccos⟩ calls).behavior_data 4 ∧
    2 * Real.sqrt ((c.run ⟨Real.sqrt, fun x y => x ^ y, Real.arccos⟩ calls).behavior_data 3 *
      (c.run ⟨Real.sqrt, fun x y => x ^ y, Real.arccos⟩ calls).behavior_data 4) ≠ 0 := by
  have hnone : ∀ (p : Fin 7 → ℝ) (i : ChIDMFollower ℝ),
      ChIDMFollower.construct p i = none ↔ (p 0 = 0 ∨ p 3 * p 4 ≤ 0) := by
    intro p i
    unfold ChIDMFollower.construct
    split_ifs with hp
    · exact ⟨fun _ => hp, fun _ => rfl⟩
    · exact ⟨fun hc => (by cases hc), fun hc => absurd hc hp⟩
  have hvalid : ¬ (params 0 = 0 ∨ params 3 * params 4 ≤ 0) := by
    intro hp
    rw [(hnone params init).mpr hp] at h
    cases h
  have hc : c.behavior_data = params := by
    unfold ChIDMFollower.construct at h
    rw [if_neg hvalid] at h
    rw [← Option.some.inj h]
  rw [run_behavior_data, hc]
  have hv0 : params 0 ≠ 0 := fun h0 => hvalid (Or.inl h0)
  have hab : 0 < params 3 * params 4 := not_le.mp (fun hle => hvalid (Or.inr hle))
  refine ⟨hnone, hv0, hab, ?_⟩
  have := Real.sqrt_pos.mpr hab
  positivity

/-- C14 for the controller of the distributed ring program: construction with `followerParam`
succeeds, and after a `Synchronize` call `v0 = 8.9408 ≠ 0` and `a*b = 4 > 0` still hold. -/
theorem C14_invalid_parameters_fail_at_construction_witness :
    ChIDMFollower.construct (followerParam : Fin 7 → ℝ) ⟨followerParam, 0, ⟨0, 0, 0⟩, 0, 0⟩ =
      some ⟨followerParam, 0, ⟨0, 0, 0⟩, 0, 0⟩ ∧
    ((ChIDMFollower.mk (followerParam : Fin 7 → ℝ) 0 ⟨0, 0, 0⟩ 0 0).run
      ⟨Real.sqrt, fun x y => x ^ y, Real.arccos⟩
      [Call.Synchronize ⟨⟨0, 0, 0⟩, 5⟩ 0 (1 / 1000) 30 5]).behavior_data 0 ≠ 0 ∧
    0 < ((ChIDMFollower.mk (followerParam : Fin 7 → ℝ) 0 ⟨0, 0, 0⟩ 0 0).run
      ⟨Real.sqrt, fun x y => x ^ y, Real.arccos⟩
      [Call.Synchronize ⟨⟨0, 0, 0⟩, 5⟩ 0 (1 / 1000) 30 5]).behavior_data 3 *
      ((ChIDMFollower.mk (followerParam : Fin 7 → ℝ) 0 ⟨0, 0, 0⟩ 0 0).run
      ⟨Real.sqrt, fun x y => x ^ y, Real.arccos⟩
      [Call.Synchronize ⟨⟨0, 0, 0⟩, 5⟩ 0 (1 / 1000) 30 5]).behavior_data 4 := by
  have hc : ChIDMFollower.construct (followerParam : Fin 7 → ℝ)
      ⟨followerParam, 0, ⟨0, 0, 0⟩, 0, 0⟩ = some ⟨followerParam, 0, ⟨0, 0, 0⟩, 0, 0⟩ := by
    unfold ChIDMFollower.construct
    rw [if_neg]
    rw [followerParam_0, followerParam_3, followerParam_4]
    norm_num
  have h := C14_invalid_parameters_fail_at_construction followerParam
    ⟨followerParam, 0, ⟨0, 0, 0⟩, 0, 0⟩ ⟨followerParam, 0, ⟨0, 0, 0⟩, 0, 0⟩ hc
    [Call.Synchronize ⟨⟨0, 0, 0⟩, 5⟩ 0 (1 / 1000) 30 5]
  exact ⟨hc, h.2.1, h.2.2.1⟩

/-- C15 fails as stated for the single-process program: its loop is `while (true)` with no
`break`.  For 19 coasting vehicles and the positive step `0.001`, the loop has not been left
after 2,000,000 passes, although the simulated time has then reached `2000`. -/
theorem C15_counterexample :
    Rom.whileTrue (⟨Real.sqrt, fun x y => x ^ y, Real.arccos⟩ : Libm ℝ)
      (Rom.coasting (1 / 1000)) 19 (1 / 1000) 2000000
      ⟨⟨Rom.sampleTick, fun _ => (), []⟩, 0, 0⟩ = none ∧
    ((Rom.pass (⟨Real.sqrt, fun x y => x ^ y, Real.arccos⟩ : Libm ℝ)
      (Rom.coasting (1 / 1000)) 19 (1 / 1000))^[2000000]
      ⟨⟨Rom.sampleTick, fun _ => (), []⟩, 0, 0⟩).time = 2000 := by
  refine ⟨Rom_whileTrue_none _ _ _ _ _ _, ?_⟩
  rw [Rom_pass_iterate_time]
  norm_num

/-- C15 (amended): the loop of the distributed ring program runs only finitely many ticks when
the system time advances by a positive step `dt` each tick, from every state of its variables (in
particular from the one `main` enters it with). -/
theorem C15_ring_loop_terminates (dt : ℝ) (hdt : 0 < dt) (st : Ring.Loop ℝ) :
    ∃ fuel n : Nat, Ring.ticks dt fuel st = some n := by
  obtain ⟨k, hk⟩ := exists_nat_gt ((Ring.sim_time - st.ChTime) / dt)
  have h : Ring.sim_time - st.ChTime < k * dt := (div_lt_iff₀ hdt).mp hk
  obtain ⟨n, hn⟩ := Ring_ticks_terminates dt k st h
  exact ⟨k + 2, n, hn⟩

/-- C15 (amended) at a concrete run: with a step of 450 s the loop entered by `main` is left
after three ticks (the system time read in the fourth pass, 1350, is past `t_end`). -/
theorem C15_ring_loop_terminates_witness :
    (0 : ℝ) < 450 ∧ (∃ fuel n : Nat, Ring.ticks (450 : ℝ) fuel ⟨0, 0, 0⟩ = some n) ∧
    Ring.ticks (450 : ℝ) 4 ⟨0, 0, 0⟩ = some 3 := by
  refine ⟨by norm_num, C15_ring_loop_terminates 450 (by norm_num) ⟨0, 0, 0⟩, ?_⟩
  simp [Ring.ticks, Ring.pass, Ring.sim_time, Ring.t_end]
  norm_num

/-! ## Scenarios -/

/-- C17 fails as stated: with the ring parameters, `thero_speed = 10`, own and lead speed
`4.4704` and `lead_distance = 3.8895` (usable gap `s = -1`), a step of `0.001` emits
`9.85030005728`, which is above the vehicle's current speed `4.4704`. -/
theorem C17_counterexample :
    (ChIDMFollower.mk (followerParam : Fin 7 → ℝ) 0 ⟨0, 0, 0⟩ 10 10).s 3.8895 = -1 ∧
    ((ChIDMFollower.mk followerParam 0 ⟨0, 0, 0⟩ 10 10).Synchronize
        ⟨Real.sqrt, fun x y => x ^ y, Real.arccos⟩ ⟨⟨0, 0, 0⟩, 4.4704⟩ 0 (1 / 1000) 3.8895
        4.4704).desiredSpeed = 9.85030005728 ∧
    4.4704 < ((ChIDMFollower.mk followerParam 0 ⟨0, 0, 0⟩ 10 10).Synchronize
        ⟨Real.sqrt, fun x y => x ^ y, Real.arccos⟩ ⟨⟨0, 0, 0⟩, 4.4704⟩ 0 (1 / 1000) 3.8895
        4.4704).desiredSpeed := by
  have hd : ((ChIDMFollower.mk followerParam 0 ⟨0, 0, 0⟩ 10 10).Synchronize
      ⟨Real.sqrt, fun x y => x ^ y, Real.arccos⟩ ⟨⟨0, 0, 0⟩, 4.4704⟩ 0 (1 / 1000) 3.8895
      4.4704).desiredSpeed = 9.85030005728 := by
    rw [Synchronize_desiredSpeed, dv_dt_real]
    norm_num [followerParam_0, followerParam_1, followerParam_2, followerParam_3,
      followerParam_4, followerParam_5, followerParam_6]
  refine ⟨?_, hd, ?_⟩
  · norm_num [ChIDMFollower.s, followerParam_6]
  · rw [hd]
    norm_num

/-- C17 (amended): over the reals, for a call with usable gap `s = -1`, `a > 0`, `s0 > 1`,
`v/v0 ≥ 0` and `step > 0`, `dv_dt` is negative and the emitted speed
`max(0, old + dv_dt*step)` is strictly below the prior `thero_speed` when that is positive, and
`0` otherwise.  The vehicle's current speed does not enter the comparison. -/
theorem C17_negative_unit_gap_brakes (self : ChIDMFollower ℝ) (veh : Chassis ℝ)
    (time step lead_distance lead_speed : ℝ)
    (hs : self.s lead_distance = -1) (ha : 0 < self.behavior_data 3)
    (hs0 : 1 < self.behavior_data 2) (hv : 0 ≤ veh.GetSpeed / self.behavior_data 0)
    (hstep : 0 < step) :
    self.dv_dt ⟨Real.sqrt, fun x y => x ^ y, Real.arccos⟩ veh.GetSpeed lead_distance
      lead_speed < 0 ∧
    (self.Synchronize ⟨Real.sqrt, fun x y => x ^ y, Real.arccos⟩ veh time step lead_distance
      lead_speed).desiredSpeed =
      max 0 (self.thero_speed + self.dv_dt ⟨Real.sqrt, fun x y => x ^ y, Real.arccos⟩
        veh.GetSpeed lead_distance lead_speed * step) ∧
    (0 < self.thero_speed →
      (self.Synchronize ⟨Real.sqrt, fun x y => x ^ y, Real.arccos⟩ veh time step lead_distance
        lead_speed).desiredSpeed < self.thero_speed) ∧
    (self.thero_speed ≤ 0 →
      (self.Synchronize ⟨Real.sqrt, fun x y => x ^ y, Real.arccos⟩ veh time step lead_distance
        lead_speed).desiredSpeed = 0) := by
  have hneg : self.dv_dt ⟨Real.sqrt, fun x y => x ^ y, Real.arccos⟩ veh.GetSpeed lead_distance
      lead_speed < 0 := by
    rw [dv_dt_real]
    have hs2 : lead_distance - self.behavior_data 6 = -1 := hs
    rw [hs2, div_neg, neg_sq, div_one]
    have hp : 0 ≤ (veh.GetSpeed / self.behavior_data 0) ^ self.behavior_data 5 :=
      Real.rpow_nonneg hv _
    have hmax : 0 ≤ max 0 (veh.GetSpeed * self.behavior_data 1 +
        veh.GetSpeed * (veh.GetSpeed - lead_speed) /
          (2 * Real.sqrt (self.behavior_data 3 * self.behavior_data 4))) := le_max_left _ _
    have hsq : 1 < (self.behavior_data 2 + max 0 (veh.GetSpeed * self.behavior_data 1 +
        veh.GetSpeed * (veh.GetSpeed - lead_speed) /
          (2 * Real.sqrt (self.behavior_data 3 * self.behavior_data 4)))) ^ 2 := by
      nlinarith
    apply mul_neg_of_pos_of_neg ha
    linarith
  have hinc : self.dv_dt ⟨Real.sqrt, fun x y => x ^ y, Real.arccos⟩ veh.GetSpeed lead_distance
      lead_speed * step < 0 := mul_neg_of_neg_of_pos hneg hstep
  refine ⟨hneg, Synchronize_desiredSpeed _ _ _ _ _ _ _, fun hpos => ?_, fun hle => ?_⟩
  · rw [Synchronize_desiredSpeed]
    exact max_lt hpos (by linarith)
  · rw [Synchronize_desiredSpeed]
    exact max_eq_left (by linarith)

/-- C17 (amended) at the call of the counterexample: ring parameters, prior `thero_speed = 10`,
own and lead speed `4.4704`, usable gap `-1`, step `0.001`; the emitted speed is below `10`. -/
theorem C17_negative_unit_gap_brakes_witness :
    ((ChIDMFollower.mk (followerParam : Fin 7 → ℝ) 0 ⟨0, 0, 0⟩ 10 10).s 3.8895 = -1 ∧
      (0 : ℝ) < followerParam 3 ∧ (1 : ℝ) < followerParam 2 ∧
      (0 : ℝ) ≤ 4.4704 / followerParam 0 ∧ (0 : ℝ) < 1 / 1000) ∧
    ((ChIDMFollower.mk followerParam 0 ⟨0, 0, 0⟩ 10 10).Synchronize
        ⟨Real.sqrt, fun x y => x ^ y, Real.arccos⟩ ⟨⟨0, 0, 0⟩, 4.4704⟩ 0 (1 / 1000) 3.8895
        4.4704).desiredSpeed < 10 := by
  have h1 : (ChIDMFollower.mk (followerParam : Fin 7 → ℝ) 0 ⟨0, 0, 0⟩ 10 10).s 3.8895 = -1 := by
    norm_num [ChIDMFollower.s, followerParam_6]
  have h2 : (0 : ℝ) < followerParam 3 := by norm_num [followerParam_3]
  have h3 : (1 : ℝ) < followerParam 2 := by norm_num [followerParam_2]
  have h4 : (0 : ℝ) ≤ 4.4704 / followerParam 0 := by norm_num [followerParam_0]
  have h5 : (0 : ℝ) < 1 / 1000 := by norm_num
  exact ⟨⟨h1, h2, h3, h4, h5⟩,
    (C17_negative_unit_gap_brakes (ChIDMFollower.mk followerParam 0 ⟨0, 0, 0⟩ 10 10)
      ⟨⟨0, 0, 0⟩, 4.4704⟩ 0 (1 / 1000) 3.8895 4.4704 h1 h2 h3 h4 h5).2.2.1 (by norm_num)⟩

/-- C19 fails as stated: in the steady-state scenario (ring parameters, own and lead speed `10`,
`thero_speed` starting at `10`, `lead_distance = 2π*25/3`, step `0.001`) the speed emitted by the
1000th call is below `9.5`, more than `0.5` away from `10`. -/
theorem C19_counterexample :
    ((ChIDMFollower.mk (followerParam : Fin 7 → ℝ) 0 ⟨25, 0, 0.5⟩ 10 10).run
        ⟨Real.sqrt, fun x y => x ^ y, Real.arccos⟩ (List.replicate 1000
          (Call.Synchronize ⟨⟨25, 0, 0.5⟩, 10⟩ 0 (1 / 1000) (2 * Real.pi * 25 / 3)
            10))).desiredSpeed < 10 - 0.5 := by
  obtain ⟨d, -, hd2, hrun⟩ := steady_run 0 10 ⟨25, 0, 0.5⟩ ⟨⟨25, 0, 0.5⟩, 10⟩ rfl 0 1000
  have hdes := desired_replicate_succ (⟨Real.sqrt, fun x y => x ^ y, Real.arccos⟩ : Libm ℝ)
    (ChIDMFollower.mk followerParam 0 ⟨25, 0, 0.5⟩ 10 10) ⟨⟨25, 0, 0.5⟩, 10⟩ 0 (1 / 1000)
    (2 * Real.pi * 25 / 3) 10 999
  have e : (999 + 1 : Nat) = 1000 := by norm_num
  rw [e] at hdes
  rw [hdes, hrun]
  apply max_lt (by norm_num)
  push_cast
  linarith

/-- C19 (amended): in the steady-state scenario the ring loop hands `2π*25/3` to the controller
for three equally spaced agents, `dv_dt` is the same negative number on every call, and the
emitted speed falls by between `0.00112` and `0.001398` per call: it stays within `0.5` of `10`
on each of the first 350 calls and is below `9.5` on every call from the 450th on. -/
theorem C19_steady_state_drift :
    Ring.syncArgs ⟨Real.sqrt, fun x y => x ^ y, Real.arccos⟩
      (⟨0, 3, ⟨⟨25 * Real.cos 0, 25 * Real.sin 0, 0.5⟩, 10⟩,
        fun j => 25 * Real.cos (2 * Real.pi / 3 * j), fun j => 25 * Real.sin (2 * Real.pi / 3 * j),
        fun _ => 10, ⟨followerParam, 0, ⟨25, 0, 0.5⟩, 10, 10⟩⟩ : Ring.Rank ℝ) =
      (2 * Real.pi * 25 / 3, 10) ∧
    (∀ n : Nat, 1 ≤ n → n ≤ 350 →
      |((ChIDMFollower.mk (followerParam : Fin 7 → ℝ) 0 ⟨25, 0, 0.5⟩ 10 10).run
        ⟨Real.sqrt, fun x y => x ^ y, Real.arccos⟩ (List.replicate n
          (Call.Synchronize ⟨⟨25, 0, 0.5⟩, 10⟩ 0 (1 / 1000) (2 * Real.pi * 25 / 3)
            10))).desiredSpeed - 10| ≤ 0.5) ∧
    (∀ n : Nat, 450 ≤ n →
      ((ChIDMFollower.mk (followerParam : Fin 7 → ℝ) 0 ⟨25, 0, 0.5⟩ 10 10).run
        ⟨Real.sqrt, fun x y => x ^ y, Real.arccos⟩ (List.replicate n
          (Call.Synchronize ⟨⟨25, 0, 0.5⟩, 10⟩ 0 (1 / 1000) (2 * Real.pi * 25 / 3)
            10))).desiredSpeed < 9.5) := by
  refine ⟨?_, fun n h1 h350 => ?_, fun n h450 => ?_⟩
  · refine Prod.ext ?_ rfl
    rw [Ring_act_dis_real]
    have hpi := Real.pi_pos
    have key := arc_of_chord 25 (by norm_num) 0 (2 * Real.pi / 3 * ((0 + 1) % 3 : Nat)) _
      (by norm_num; rw [abs_of_nonneg (by positivity)]; linarith) rfl
    rw [key]
    norm_num
    rw [abs_of_nonneg (by positivity)]
    ring
  · obtain ⟨j, rfl⟩ : ∃ j, n = j + 1 := ⟨n - 1, by omega⟩
    obtain ⟨d, hd1, hd2, hrun⟩ := steady_run 0 10 ⟨25, 0, 0.5⟩ ⟨⟨25, 0, 0.5⟩, 10⟩ rfl 0 (j + 1)
    rw [desired_replicate_succ, hrun]
    have hn : ((j + 1 : Nat) : ℝ) ≤ 350 := by exact_mod_cast h350
    have hn0 : (0 : ℝ) ≤ ((j + 1 : Nat) : ℝ) := Nat.cast_nonneg _
    have hd0 : d ≤ 0 := by linarith
    have hm := mul_le_mul_of_nonpos_right hn hd0
    have hlow : 9.5 ≤ 10 + ((j + 1 : Nat) : ℝ) * d := by linarith
    have hup : 10 + ((j + 1 : Nat) : ℝ) * d ≤ 10 := by
      have := mul_nonpos_of_nonneg_of_nonpos hn0 hd0
      linarith
    rw [max_eq_right (by linarith), abs_le]
    constructor <;> linarith
  · obtain ⟨j, rfl⟩ : ∃ j, n = j + 1 := ⟨n - 1, by omega⟩
    obtain ⟨d, hd1, hd2, hrun⟩ := steady_run 0 10 ⟨25, 0, 0.5⟩ ⟨⟨25, 0, 0.5⟩, 10⟩ rfl 0 (j + 1)
    rw [desired_replicate_succ, hrun]
    have hn : (450 : ℝ) ≤ ((j + 1 : Nat) : ℝ) := by exact_mod_cast h450
    have hd0 : d ≤ 0 := by linarith
    have hm := mul_le_mul_of_nonpos_right hn hd0
    apply max_lt (by norm_num)
    linarith

/-- C20: boundary values of the ring gap.  In the distributed program (`R = 25`) a raw distance
`0` gives gap `0`, and the raw distance `2*R = 50` gives `temp = -1`, `theta = π` and gap
`π*25`; in the single-process program (`R = 50`) the same holds with raw distance `100` and gap
`π*50`; and for every `R > 0` the formula `R*|acos(clamp(1 - raw^2/(2*R^2)))|` gives `0` at
`raw = 0` and `π*R` at `raw = 2*R`. -/
theorem C20_gap_boundary_values :
    Ring.act_dis (Ring.theta ⟨Real.sqrt, fun x y => x ^ y, Real.arccos⟩ (Ring.temp (0 : ℝ))) = 0 ∧
    Ring.temp (50 : ℝ) = -1 ∧
    Ring.theta ⟨Real.sqrt, fun x y => x ^ y, Real.arccos⟩ (Ring.temp (50 : ℝ)) = Real.pi ∧
    Ring.act_dis (Ring.theta ⟨Real.sqrt, fun x y => x ^ y, Real.arccos⟩ (Ring.temp (50 : ℝ))) =
      Real.pi * 25 ∧
    Rom.act_dis (Rom.theta ⟨Real.sqrt, fun x y => x ^ y, Real.arccos⟩ (Rom.temp (0 : ℝ))) = 0 ∧
    Rom.temp (100 : ℝ) = -1 ∧
    Rom.theta ⟨Real.sqrt, fun x y => x ^ y, Real.arccos⟩ (Rom.temp (100 : ℝ)) = Real.pi ∧
    Rom.act_dis (Rom.theta ⟨Real.sqrt, fun x y => x ^ y, Real.arccos⟩ (Rom.temp (100 : ℝ))) =
      Real.pi * 50 ∧
    ∀ R : ℝ, 0 < R →
      R * |Real.arccos (max (-1) (min 1 (1 - (0 : ℝ) ^ 2 / (2 * R ^ 2))))| = 0 ∧
      1 - (2 * R) ^ 2 / (2 * R ^ 2) = -1 ∧
      R * |Real.arccos (max (-1) (min 1 (1 - (2 * R) ^ 2 / (2 * R ^ 2))))| = Real.pi * R := by
  have hpi : |Real.pi| = Real.pi := abs_of_nonneg Real.pi_pos.le
  have ht25 : Ring.temp (50 : ℝ) = -1 := by
    simp only [Ring.temp]
    norm_num
  have ht50 : Rom.temp (100 : ℝ) = -1 := by
    simp only [Rom.temp]
    norm_num
  have ht25z : Ring.temp (0 : ℝ) = 1 := by
    simp only [Ring.temp]
    norm_num
  have ht50z : Rom.temp (0 : ℝ) = 1 := by
    simp only [Rom.temp]
    norm_num
  refine ⟨?_, ht25, ?_, ?_, ?_, ht50, ?_, ?_, fun R hR => ?_⟩
  · simp [Ring.act_dis, Ring.theta, ht25z]
  · simp [Ring.theta, ht25, hpi]
  · simp only [Ring.act_dis, Ring.theta, ht25, Real.arccos_neg_one, hpi]
    norm_num
  · simp [Rom.act_dis, Rom.theta, ht50z]
  · simp [Rom.theta, ht50, hpi]
  · simp [Rom.act_dis, Rom.theta, ht50, hpi]
  · have hR2 : (2 * R ^ 2) ≠ 0 := by positivity
    have hm : 1 - (2 * R) ^ 2 / (2 * R ^ 2) = -1 := by
      field_simp
      ring
    refine ⟨by simp, hm, ?_⟩
    rw [hm]
    simp [hpi, mul_comm]

/-! ## Further properties of the law and the odometer -/

/-- C21: over the reals, when the usable gap `s` equals `s_star` and is not `0`, the gap term
`(s_star/s)^2` is exactly `1`, so `dv_dt = -a * (v/v0)^delta`. -/
theorem C21_pinned_boundary (self : ChIDMFollower ℝ) (v lead_distance lead_speed : ℝ)
    (hs : self.s lead_distance =
      self.s_star ⟨Real.sqrt, fun x y => x ^ y, Real.arccos⟩ v lead_speed)
    (hne : self.s lead_distance ≠ 0) :
    (self.s_star ⟨Real.sqrt, fun x y => x ^ y, Real.arccos⟩ v lead_speed /
      self.s lead_distance) ^ 2 = 1 ∧
    self.dv_dt ⟨Real.sqrt, fun x y => x ^ y, Real.arccos⟩ v lead_distance lead_speed =
      -(self.behavior_data 3 * (v / self.behavior_data 0) ^ self.behavior_data 5) := by
  have h1 : self.s_star ⟨Real.sqrt, fun x y => x ^ y, Real.arccos⟩ v lead_speed /
      self.s lead_distance = 1 := by
    rw [← hs]
    exact div_self hne
  refine ⟨by rw [h1, one_pow], ?_⟩
  simp only [ChIDMFollower.dv_dt, h1]
  norm_num

/-- C21 at a concrete call: ring parameters, own and lead speed `v0 = 8.9408`,
`lead_distance = 20.3007`, so `s = s_star = 15.4112` and `dv_dt = -2`. -/
theorem C21_pinned_boundary_witness :
    ((ChIDMFollower.mk (followerParam : Fin 7 → ℝ) 0 ⟨0, 0, 0⟩ 10 10).s 20.3007 =
        (ChIDMFollower.mk (followerParam : Fin 7 → ℝ) 0 ⟨0, 0, 0⟩ 10 10).s_star
          ⟨Real.sqrt, fun x y => x ^ y, Real.arccos⟩ 8.9408 8.9408 ∧
      (ChIDMFollower.mk (followerParam : Fin 7 → ℝ) 0 ⟨0, 0, 0⟩ 10 10).s 20.3007 ≠ 0) ∧
    (ChIDMFollower.mk (followerParam : Fin 7 → ℝ) 0 ⟨0, 0, 0⟩ 10 10).dv_dt
      ⟨Real.sqrt, fun x y => x ^ y, Real.arccos⟩ 8.9408 20.3007 8.9408 = -2 := by
  have h1 : (ChIDMFollower.mk (followerParam : Fin 7 → ℝ) 0 ⟨0, 0, 0⟩ 10 10).s 20.3007 =
      (ChIDMFollower.mk (followerParam : Fin 7 → ℝ) 0 ⟨0, 0, 0⟩ 10 10).s_star
        ⟨Real.sqrt, fun x y => x ^ y, Real.arccos⟩ 8.9408 8.9408 := by
    simp only [ChIDMFollower.s, ChIDMFollower.s_star, ChMax_eq_max, followerParam_1,
      followerParam_2, followerParam_3, followerParam_4, followerParam_6]
    norm_num
  have h2 : (ChIDMFollower.mk (followerParam : Fin 7 → ℝ) 0 ⟨0, 0, 0⟩ 10 10).s 20.3007 ≠ 0 := by
    norm_num [ChIDMFollower.s, followerParam_6]
  refine ⟨⟨h1, h2⟩, ?_⟩
  rw [(C21_pinned_boundary _ 8.9408 20.3007 8.9408 h1 h2).2]
  norm_num [followerParam_0, followerParam_3, followerParam_5]

/-- C22: free-flow limit over the reals, for `v0 > 0`.  When the own speed equals `v0` the
free-road term `1 - (v/v0)^delta` is `0` and `dv_dt = -a * (s_star/s)^2`; as `lead_distance` (and
with it the usable gap `s = lead_distance - behavior_data[6]`) tends to infinity, `dv_dt` tends to
`0`, and starting from `thero_speed = v0` the emitted desired speed tends to `v0`. -/
theorem C22_free_flow_limit (self : ChIDMFollower ℝ) (veh : Chassis ℝ)
    (time step lead_speed : ℝ) (hv0 : 0 < self.behavior_data 0)
    (hv : veh.GetSpeed = self.behavior_data 0) (hth : self.thero_speed = self.behavior_data 0) :
    1 - (veh.GetSpeed / self.behavior_data 0) ^ self.behavior_data 5 = 0 ∧
    (∀ lead_distance : ℝ,
      self.dv_dt ⟨Real.sqrt, fun x y => x ^ y, Real.arccos⟩ veh.GetSpeed lead_distance
        lead_speed =
      -(self.behavior_data 3 *
        (self.s_star ⟨Real.sqrt, fun x y => x ^ y, Real.arccos⟩ veh.GetSpeed lead_speed /
          self.s lead_distance) ^ 2)) ∧
    Filter.Tendsto (fun lead_distance : ℝ =>
      self.dv_dt ⟨Real.sqrt, fun x y => x ^ y, Real.arccos⟩ veh.GetSpeed lead_distance
        lead_speed) Filter.atTop (nhds 0) ∧
    Filter.Tendsto (fun lead_distance : ℝ =>
      (self.Synchronize ⟨Real.sqrt, fun x y => x ^ y, Real.arccos⟩ veh time step lead_distance
        lead_speed).desiredSpeed) Filter.atTop (nhds (self.behavior_data 0)) := by
  have hone : (veh.GetSpeed / self.behavior_data 0) ^ self.behavior_data 5 = 1 := by
    rw [hv, div_self hv0.ne', Real.one_rpow]
  have hdv : ∀ lead_distance : ℝ,
      self.dv_dt ⟨Real.sqrt, fun x y => x ^ y, Real.arccos⟩ veh.GetSpeed lead_distance
        lead_speed =
      -(self.behavior_data 3 *
        (self.s_star ⟨Real.sqrt, fun x y => x ^ y, Real.arccos⟩ veh.GetSpeed lead_speed /
          self.s lead_distance) ^ 2) := by
    intro lead_distance
    simp only [ChIDMFollower.dv_dt, hone]
    norm_num
  have h1 : Filter.Tendsto (fun lead_distance : ℝ => self.s lead_distance) Filter.atTop
      Filter.atTop := by
    simp only [ChIDMFollower.s, sub_eq_add_neg]
    exact Filter.tendsto_atTop_add_const_right _ _ Filter.tendsto_id
  have h2 : Filter.Tendsto (fun lead_distance : ℝ =>
      self.s_star ⟨Real.sqrt, fun x y => x ^ y, Real.arccos⟩ veh.GetSpeed lead_speed /
        self.s lead_distance) Filter.atTop (nhds 0) := tendsto_const_nhds.div_atTop h1
  have h3 : Filter.Tendsto (fun lead_distance : ℝ =>
      self.dv_dt ⟨Real.sqrt, fun x y => x ^ y, Real.arccos⟩ veh.GetSpeed lead_distance
        lead_speed) Filter.atTop (nhds 0) := by
    simp only [hdv]
    have := ((h2.pow 2).const_mul (self.behavior_data 3)).neg
    simpa using this
  refine ⟨by rw [hone, sub_self], hdv, h3, ?_⟩
  simp only [Synchronize_desiredSpeed]
  have h4 := Filter.Tendsto.max (tendsto_const_nhds (x := (0 : ℝ)))
    ((h3.mul_const step).const_add self.thero_speed)
  have e : max 0 (self.thero_speed + 0 * step) = self.behavior_data 0 := by
    rw [zero_mul, add_zero, hth, max_eq_right hv0.le]
  rw [e] at h4
  exact h4

/-- C22 for the ring parameters: own speed and `thero_speed` equal to `v0 = 8.9408`, leader at
`8`, step `0.001`; the emitted speed tends to `8.9408` as `lead_distance` grows. -/
theorem C22_free_flow_limit_witness :
    ((0 : ℝ) < followerParam 0 ∧ (8.9408 : ℝ) = followerParam 0) ∧
    Filter.Tendsto (fun lead_distance : ℝ =>
      ((ChIDMFollower.mk followerParam 0 ⟨0, 0, 0⟩ 8.9408 0).Synchronize
        ⟨Real.sqrt, fun x y => x ^ y, Real.arccos⟩ ⟨⟨0, 0, 0⟩, 8.9408⟩ 0 (1 / 1000)
        lead_distance 8).desiredSpeed) Filter.atTop (nhds 8.9408) := by
  have h0 : (0 : ℝ) < followerParam 0 := by norm_num [followerParam_0]
  have h1 : (8.9408 : ℝ) = followerParam 0 := followerParam_0.symm
  have h := (C22_free_flow_limit (ChIDMFollower.mk followerParam 0 ⟨0, 0, 0⟩ 8.9408 0)
    ⟨⟨0, 0, 0⟩, 8.9408⟩ 0 (1 / 1000) 8 h0 h1 h1).2.2.2
  rw [show (ChIDMFollower.mk (followerParam : Fin 7 → ℝ) 0 ⟨0, 0, 0⟩ 8.9408 0).behavior_data 0 =
    8.9408 from followerParam_0] at h
  exact ⟨⟨h0, h1⟩, h⟩

/-- C23: over the reals the odometer never decreases.  The value returned by `Get_Dist` after a
`Synchronize` call is at least the value before it, whatever the chassis position; the same holds
for every further call at the end of any sequence of calls, and for a whole sequence. -/
theorem C23_odometer_monotone (self : ChIDMFollower ℝ) (veh : Chassis ℝ)
    (time step lead_distance lead_speed : ℝ) (calls : List (Call ℝ)) (c : Call ℝ) :
    self.Get_Dist ≤ (self.Synchronize ⟨Real.sqrt, fun x y => x ^ y, Real.arccos⟩ veh time step
      lead_distance lead_speed).Get_Dist ∧
    (self.run ⟨Real.sqrt, fun x y => x ^ y, Real.arccos⟩ calls).Get_Dist ≤
      (self.run ⟨Real.sqrt, fun x y => x ^ y, Real.arccos⟩ (calls ++ [c])).Get_Dist ∧
    self.Get_Dist ≤ (self.run ⟨Real.sqrt, fun x y => x ^ y, Real.arccos⟩ calls).Get_Dist := by
  refine ⟨call_dist_le self (Call.Synchronize veh time step lead_distance lead_speed), ?_,
    run_dist_le calls self⟩
  rw [run_append_singleton]
  exact call_dist_le _ c

/-- C26: bounded acceleration over the reals.  For `a > 0`, `step > 0`, `v/v0 ≥ 0` and usable gap
`s ≠ 0`, `dv_dt ≤ a`, so one call leaves `thero_speed` at most at `max(0, old + a*step)`, and
when the prior value is not negative the call raises it by at most `a*step`. -/
theorem C26_bounded_acceleration (self : ChIDMFollower ℝ) (veh : Chassis ℝ)
    (time step lead_distance lead_speed : ℝ) (ha : 0 < self.behavior_data 3)
    (hstep : 0 < step) (hv : 0 ≤ veh.GetSpeed / self.behavior_data 0)
    (hs : self.s lead_distance ≠ 0) :
    self.dv_dt ⟨Real.sqrt, fun x y => x ^ y, Real.arccos⟩ veh.GetSpeed lead_distance
      lead_speed ≤ self.behavior_data 3 ∧
    (self.Synchronize ⟨Real.sqrt, fun x y => x ^ y, Real.arccos⟩ veh time step lead_distance
      lead_speed).thero_speed ≤ max 0 (self.thero_speed + self.behavior_data 3 * step) ∧
    (0 ≤ self.thero_speed →
      (self.Synchronize ⟨Real.sqrt, fun x y => x ^ y, Real.arccos⟩ veh time step lead_distance
        lead_speed).thero_speed - self.thero_speed ≤ self.behavior_data 3 * step) := by
  have _ := hs
  have hdv : self.dv_dt ⟨Real.sqrt, fun x y => x ^ y, Real.arccos⟩ veh.GetSpeed lead_distance
      lead_speed ≤ self.behavior_data 3 := by
    rw [dv_dt_real]
    have hp : 0 ≤ (veh.GetSpeed / self.behavior_data 0) ^ self.behavior_data 5 :=
      Real.rpow_nonneg hv _
    have hg := sq_nonneg ((self.behavior_data 2 + max 0 (veh.GetSpeed * self.behavior_data 1 +
      veh.GetSpeed * (veh.GetSpeed - lead_speed) /
        (2 * Real.sqrt (self.behavior_data 3 * self.behavior_data 4)))) /
      (lead_distance - self.behavior_data 6))
    nlinarith
  have hinc : self.dv_dt ⟨Real.sqrt, fun x y => x ^ y, Real.arccos⟩ veh.GetSpeed lead_distance
      lead_speed * step ≤ self.behavior_data 3 * step :=
    mul_le_mul_of_nonneg_right hdv hstep.le
  have hmax : (self.Synchronize ⟨Real.sqrt, fun x y => x ^ y, Real.arccos⟩ veh time step
      lead_distance lead_speed).thero_speed ≤
      max 0 (self.thero_speed + self.behavior_data 3 * step) := by
    rw [Synchronize_thero_speed]
    exact max_le_max le_rfl (by linarith)
  refine ⟨hdv, hmax, fun h0 => ?_⟩
  have hpos : 0 ≤ self.thero_speed + self.behavior_data 3 * step := by positivity
  rw [max_eq_right hpos] at hmax
  linarith

/-- C26 at a concrete call: ring parameters (`a = 2`), vehicle and leader at rest, usable gap
`4`, step `0.001`: `thero_speed` goes from `10` to at most `10.002`. -/
theorem C26_bounded_acceleration_witness :
    ((0 : ℝ) < followerParam 3 ∧ (0 : ℝ) < 1 / 1000 ∧ (0 : ℝ) ≤ 0 / followerParam 0 ∧
      (ChIDMFollower.mk (followerParam : Fin 7 → ℝ) 0 ⟨0, 0, 0⟩ 10 10).s 8.8895 ≠ 0) ∧
    ((ChIDMFollower.mk followerParam 0 ⟨0, 0, 0⟩ 10 10).Synchronize
        ⟨Real.sqrt, fun x y => x ^ y, Real.arccos⟩ ⟨⟨0, 0, 0⟩, 0⟩ 0 (1 / 1000) 8.8895
        0).thero_speed - 10 ≤ followerParam 3 * (1 / 1000) := by
  have h1 : (0 : ℝ) < followerParam 3 := by norm_num [followerParam_3]
  have h2 : (0 : ℝ) < 1 / 1000 := by norm_num
  have h3 : (0 : ℝ) ≤ 0 / followerParam 0 := by norm_num
  have h4 : (ChIDMFollower.mk (followerParam : Fin 7 → ℝ) 0 ⟨0, 0, 0⟩ 10 10).s 8.8895 ≠ 0 := by
    norm_num [ChIDMFollower.s, followerParam_6]
  exact ⟨⟨h1, h2, h3, h4⟩,
    (C26_bounded_acceleration (ChIDMFollower.mk followerParam 0 ⟨0, 0, 0⟩ 10 10)
      ⟨⟨0, 0, 0⟩, 0⟩ 0 (1 / 1000) 8.8895 0 h1 h2 h3 h4).2.2 (by norm_num)⟩

/-- C28: after every `Synchronize` call the speed handed to `SetDesiredSpeed` equals the
`thero_speed` stored by the call, for one call and at the end of every sequence of calls that
ends with a `Synchronize`. -/
theorem C28_desired_equals_thero (m : Libm α) (self : ChIDMFollower α) (veh : Chassis α)
    (time step lead_distance lead_speed : α) (calls : List (Call α)) :
    (self.Synchronize m veh time step lead_distance lead_speed).desiredSpeed =
      (self.Synchronize m veh time step lead_distance lead_speed).thero_speed ∧
    (self.run m (calls ++ [Call.Synchronize veh time step lead_distance lead_speed])).desiredSpeed =
      (self.run m (calls ++ [Call.Synchronize veh time step lead_distance
        lead_speed])).thero_speed := by
  constructor
  · rw [Synchronize_thero_speed, Synchronize_desiredSpeed]
  · rw [run_append_singleton]
    show (ChIDMFollower.Synchronize m _ veh time step lead_distance lead_speed).desiredSpeed =
      (ChIDMFollower.Synchronize m _ veh time step lead_distance lead_speed).thero_speed
    rw [Synchronize_thero_speed, Synchronize_desiredSpeed]

/-- C30: `Set_TheroSpeed(x)` stores `x` in `thero_speed` as it is (a negative `x` too), and
leaves `dist`, `previousPos`, `behavior_data` and the desired speed unchanged; the next
`Synchronize` stores a value `≥ 0` again. -/
theorem C30_set_thero_speed (m : Libm α) (self : ChIDMFollower α) (x : α) (veh : Chassis α)
    (time step lead_distance lead_speed : α) :
    (self.Set_TheroSpeed x).thero_speed = x ∧
    (self.Set_TheroSpeed x).Get_Dist = self.Get_Dist ∧
    (self.Set_TheroSpeed x).previousPos = self.previousPos ∧
    (self.Set_TheroSpeed x).behavior_data = self.behavior_data ∧
    (self.Set_TheroSpeed x).desiredSpeed = self.desiredSpeed ∧
    (ChIDMFollower.Set_TheroSpeed self (-1)).thero_speed = -1 ∧
    0 ≤ ((self.Set_TheroSpeed x).Synchronize m veh time step lead_distance
      lead_speed).thero_speed := by
  refine ⟨rfl, rfl, rfl, rfl, rfl, rfl, ?_⟩
  rw [Synchronize_thero_speed]
  exact le_max_left _ _

/-! ## Further properties of the ring gap and the leader map -/

/-- C27: for all positions of the agent and its leader, in both programs the value passed to
`acos` after the clamp lies in `[-1, 1]`; over the reals the gap lies in `[0, π*R]` (`R = 25`,
`R = 50`), and the absolute value leaves the result of `acos` as it is. -/
theorem C27_acos_domain_and_gap_range (r : Ring.Rank ℝ) (rom_vec : Nat → Rom.Ch_8DOF_vehicle ℝ)
    (num_rom i : Nat) :
    (∀ raw_dis : ℝ, -1 ≤ Ring.temp raw_dis ∧ Ring.temp raw_dis ≤ 1) ∧
    (∀ raw_dis : ℝ, -1 ≤ Rom.temp raw_dis ∧ Rom.temp raw_dis ≤ 1) ∧
    (0 ≤ (Ring.syncArgs ⟨Real.sqrt, fun x y => x ^ y, Real.arccos⟩ r).1 ∧
      (Ring.syncArgs ⟨Real.sqrt, fun x y => x ^ y, Real.arccos⟩ r).1 ≤ Real.pi * 25) ∧
    (0 ≤ (Rom.syncArgs ⟨Real.sqrt, fun x y => x ^ y, Real.arccos⟩ rom_vec num_rom i).1 ∧
      (Rom.syncArgs ⟨Real.sqrt, fun x y => x ^ y, Real.arccos⟩ rom_vec num_rom i).1 ≤
        Real.pi * 50) ∧
    (∀ temp : ℝ, Ring.theta ⟨Real.sqrt, fun x y => x ^ y, Real.arccos⟩ temp =
      Real.arccos temp) ∧
    (∀ temp : ℝ, Rom.theta ⟨Real.sqrt, fun x y => x ^ y, Real.arccos⟩ temp =
      Real.arccos temp) := by
  have habs : ∀ t : ℝ, |Real.arccos t| = Real.arccos t := fun t =>
    abs_of_nonneg (Real.arccos_nonneg t)
  refine ⟨Ring_temp_mem, Rom_temp_mem, ?_, ?_, fun t => habs t, fun t => habs t⟩
  · rw [Ring_act_dis_real, habs]
    constructor
    · have := Real.arccos_nonneg (max (-1) (min 1 (1 -
        Real.sqrt ((r.my_vehicle.GetPos.x - r.all_x ((r.node_id + 1) % r.num_nodes)) ^ 2 +
          (r.my_vehicle.GetPos.y - r.all_y ((r.node_id + 1) % r.num_nodes)) ^ 2) ^ 2
          / (2 * 25 ^ 2))))
      positivity
    · have := Real.arccos_le_pi (max (-1) (min 1 (1 -
        Real.sqrt ((r.my_vehicle.GetPos.x - r.all_x ((r.node_id + 1) % r.num_nodes)) ^ 2 +
          (r.my_vehicle.GetPos.y - r.all_y ((r.node_id + 1) % r.num_nodes)) ^ 2) ^ 2
          / (2 * 25 ^ 2))))
      linarith
  · rw [Rom_act_dis_real, habs]
    constructor
    · have := Real.arccos_nonneg (max (-1) (min 1 (1 -
        Real.sqrt (((rom_vec ((i + 1) % num_rom)).GetPos.x - (rom_vec i).GetPos.x) ^ 2 +
          ((rom_vec ((i + 1) % num_rom)).GetPos.y - (rom_vec i).GetPos.y) ^ 2 +
          ((rom_vec ((i + 1) % num_rom)).GetPos.z - (rom_vec i).GetPos.z) ^ 2) ^ 2
          / (2 * 50 ^ 2))))
      positivity
    · have := Real.arccos_le_pi (max (-1) (min 1 (1 -
        Real.sqrt (((rom_vec ((i + 1) % num_rom)).GetPos.x - (rom_vec i).GetPos.x) ^ 2 +
          ((rom_vec ((i + 1) % num_rom)).GetPos.y - (rom_vec i).GetPos.y) ^ 2 +
          ((rom_vec ((i + 1) % num_rom)).GetPos.z - (rom_vec i).GetPos.z) ^ 2) ^ 2
          / (2 * 50 ^ 2))))
      linarith

/-- C29: for `N ≥ 1` the leader map `i ↦ (i+1) mod N` of both programs sends `0..N-1` into
itself and every agent is the leader of exactly one agent; for `N ≥ 2` no agent is its own
leader; for `N = 1` the single agent is its own leader. -/
theorem C29_leader_map_bijective (N : Nat) (hN : 1 ≤ N) :
    (∀ i, i < N → Ring.lead_idx i N < N ∧ Rom.ld_idx i N < N) ∧
    (∀ k, k < N → ∃! i, i < N ∧ Ring.lead_idx i N = k) ∧
    (∀ k, k < N → ∃! i, i < N ∧ Rom.ld_idx i N = k) ∧
    (2 ≤ N → ∀ i, i < N → Ring.lead_idx i N ≠ i ∧ Rom.ld_idx i N ≠ i) ∧
    Ring.lead_idx 0 1 = 0 ∧ Rom.ld_idx 0 1 = 0 := by
  have hpos : 0 < N := hN
  refine ⟨fun i _ => ⟨Nat.mod_lt _ hpos, Nat.mod_lt _ hpos⟩,
    fun k hk => succ_mod_existsUnique N k hk, fun k hk => succ_mod_existsUnique N k hk,
    fun h2 i hi => ?_, rfl, rfl⟩
  have h : (i + 1) % N ≠ i := by
    rw [succ_mod_eq N i hi]
    split_ifs <;> omega
  exact ⟨h, h⟩

/-- C29 at `N = 19`, the size of the single-process ring: agent 0 is the leader of exactly one
agent, and agent 18 is not its own leader. -/
theorem C29_leader_map_bijective_witness :
    (1 ≤ 19) ∧ (∃! i, i < 19 ∧ Rom.ld_idx i 19 = 0) ∧ Rom.ld_idx 18 19 ≠ 18 := by
  have h := C29_leader_map_bijective 19 (by decide)
  exact ⟨by decide, h.2.2.1 0 (by decide), (h.2.2.2.1 (by decide) 18 (by decide)).2⟩

/-- C24: shorter-arc behaviour.  When the agent stands on the circle of radius `R` at angle `φ`
and its leader at the forward angle `φ + θ` with `θ ∈ [π, 2π]`, the computed gap is
`R * (2π - θ)` (`R = 25` in the distributed program, `R = 50` and equal heights in the
single-process program), which is below the forward arc `R * θ` when `θ > π`; and for arbitrary
positions the computed gap is the same when agent and leader are exchanged. -/
theorem C24_shorter_arc (φ θ : ℝ) (hlo : Real.pi ≤ θ) (hhi : θ ≤ 2 * Real.pi)
    (r : Ring.Rank ℝ)
    (hpx : r.my_vehicle.GetPos.x = 25 * Real.cos φ)
    (hpy : r.my_vehicle.GetPos.y = 25 * Real.sin φ)
    (hlx : r.all_x ((r.node_id + 1) % r.num_nodes) = 25 * Real.cos (φ + θ))
    (hly : r.all_y ((r.node_id + 1) % r.num_nodes) = 25 * Real.sin (φ + θ))
    (rom_vec : Nat → Rom.Ch_8DOF_vehicle ℝ) (num_rom i : Nat) (height : ℝ)
    (hi : (rom_vec i).GetPos = ⟨50 * Real.cos φ, 50 * Real.sin φ, height⟩)
    (hl : (rom_vec ((i + 1) % num_rom)).GetPos =
      ⟨50 * Real.cos (φ + θ), 50 * Real.sin (φ + θ), height⟩) :
    (Ring.syncArgs ⟨Real.sqrt, fun x y => x ^ y, Real.arccos⟩ r).1 = 25 * (2 * Real.pi - θ) ∧
    (Rom.syncArgs ⟨Real.sqrt, fun x y => x ^ y, Real.arccos⟩ rom_vec num_rom i).1 =
      50 * (2 * Real.pi - θ) ∧
    (Real.pi < θ →
      (Ring.syncArgs ⟨Real.sqrt, fun x y => x ^ y, Real.arccos⟩ r).1 < 25 * θ ∧
      (Rom.syncArgs ⟨Real.sqrt, fun x y => x ^ y, Real.arccos⟩ rom_vec num_rom i).1 < 50 * θ) ∧
    (∀ (p q : ChVector ℝ) (v w : ℝ) (k : Nat),
      Ring.act_dis (Ring.theta ⟨Real.sqrt, fun x y => x ^ y, Real.arccos⟩ (Ring.temp
        (Ring.raw_dis ⟨Real.sqrt, fun x y => x ^ y, Real.arccos⟩ ⟨p, v⟩ (fun _ => q.x)
          (fun _ => q.y) k))) =
      Ring.act_dis (Ring.theta ⟨Real.sqrt, fun x y => x ^ y, Real.arccos⟩ (Ring.temp
        (Ring.raw_dis ⟨Real.sqrt, fun x y => x ^ y, Real.arccos⟩ ⟨q, w⟩ (fun _ => p.x)
          (fun _ => p.y) k)))) ∧
    (∀ (rv : Nat → Rom.Ch_8DOF_vehicle ℝ) (j k : Nat),
      Rom.act_dis (Rom.theta ⟨Real.sqrt, fun x y => x ^ y, Real.arccos⟩ (Rom.temp
        (Rom.raw_dis ⟨Real.sqrt, fun x y => x ^ y, Real.arccos⟩ rv j k))) =
      Rom.act_dis (Rom.theta ⟨Real.sqrt, fun x y => x ^ y, Real.arccos⟩ (Rom.temp
        (Rom.raw_dis ⟨Real.sqrt, fun x y => x ^ y, Real.arccos⟩ rv k j)))) := by
  have habs : |φ + θ - 2 * Real.pi - φ| = 2 * Real.pi - θ := by
    rw [show φ + θ - 2 * Real.pi - φ = -(2 * Real.pi - θ) by ring, abs_neg,
      abs_of_nonneg (by linarith)]
  have hle : |φ + θ - 2 * Real.pi - φ| ≤ Real.pi := by
    rw [habs]
    linarith
  have hring : (Ring.syncArgs ⟨Real.sqrt, fun x y => x ^ y, Real.arccos⟩ r).1 =
      25 * (2 * Real.pi - θ) := by
    rw [Ring_gap_on_circle r φ (φ + θ - 2 * Real.pi) hle hpx hpy
      (by rw [hlx, Real.cos_sub_two_pi]) (by rw [hly, Real.sin_sub_two_pi]), habs]
  have hrom : (Rom.syncArgs ⟨Real.sqrt, fun x y => x ^ y, Real.arccos⟩ rom_vec num_rom i).1 =
      50 * (2 * Real.pi - θ) := by
    rw [Rom_gap_on_circle rom_vec num_rom i φ (φ + θ - 2 * Real.pi) height hle hi
      (by rw [hl, Real.cos_sub_two_pi, Real.sin_sub_two_pi]), habs]
  refine ⟨hring, hrom, fun hgt => ⟨by rw [hring]; linarith, by rw [hrom]; linarith⟩, ?_, ?_⟩
  · intro p q v w k
    have e : Ring.raw_dis ⟨Real.sqrt, fun x y => x ^ y, Real.arccos⟩ ⟨p, v⟩ (fun _ => q.x)
        (fun _ => q.y) k =
        Ring.raw_dis ⟨Real.sqrt, fun x y => x ^ y, Real.arccos⟩ ⟨q, w⟩ (fun _ => p.x)
          (fun _ => p.y) k := by
      simp only [Ring.raw_dis]
      congr 1
      ring
    rw [e]
  · intro rv j k
    have e : Rom.raw_dis ⟨Real.sqrt, fun x y => x ^ y, Real.arccos⟩ rv j k =
        Rom.raw_dis ⟨Real.sqrt, fun x y => x ^ y, Real.arccos⟩ rv k j := by
      simp only [Rom.raw_dis, ChVector.Length, ChVector.sub]
      congr 1
      ring
    rw [e]

/-- C24 at concrete positions: the leader three quarters of a turn ahead (`θ = 3π/2`); the gap
is the quarter turn `R * (2π - 3π/2)`. -/
theorem C24_shorter_arc_witness :
    (Real.pi ≤ 3 * Real.pi / 2 ∧ 3 * Real.pi / 2 ≤ 2 * Real.pi) ∧
    (Ring.syncArgs ⟨Real.sqrt, fun x y => x ^ y, Real.arccos⟩
      (⟨0, 3, ⟨⟨25 * Real.cos 0, 25 * Real.sin 0, 0.5⟩, 0⟩,
        fun _ => 25 * Real.cos (0 + 3 * Real.pi / 2), fun _ => 25 * Real.sin (0 + 3 * Real.pi / 2),
        fun _ => 0, ⟨followerParam, 0, ⟨0, 0, 0⟩, 0, 0⟩⟩ : Ring.Rank ℝ)).1 =
      25 * (2 * Real.pi - 3 * Real.pi / 2) ∧
    (Rom.syncArgs ⟨Real.sqrt, fun x y => x ^ y, Real.arccos⟩
      (fun j => if j = 0 then
          (⟨⟨50 * Real.cos 0, 50 * Real.sin 0, 0.5⟩, ⟨0, 0, 0⟩⟩ : Rom.Ch_8DOF_vehicle ℝ)
        else ⟨⟨50 * Real.cos (0 + 3 * Real.pi / 2), 50 * Real.sin (0 + 3 * Real.pi / 2), 0.5⟩,
          ⟨0, 0, 0⟩⟩) 19 0).1 = 50 * (2 * Real.pi - 3 * Real.pi / 2) := by
  have hpi := Real.pi_pos
  have h1 : Real.pi ≤ 3 * Real.pi / 2 := by linarith
  have h2 : 3 * Real.pi / 2 ≤ 2 * Real.pi := by linarith
  have h := C24_shorter_arc 0 (3 * Real.pi / 2) h1 h2
    ⟨0, 3, ⟨⟨25 * Real.cos 0, 25 * Real.sin 0, 0.5⟩, 0⟩,
      fun _ => 25 * Real.cos (0 + 3 * Real.pi / 2), fun _ => 25 * Real.sin (0 + 3 * Real.pi / 2),
      fun _ => 0, ⟨followerParam, 0, ⟨0, 0, 0⟩, 0, 0⟩⟩ rfl rfl rfl rfl
    (fun j => if j = 0 then ⟨⟨50 * Real.cos 0, 50 * Real.sin 0, 0.5⟩, ⟨0, 0, 0⟩⟩
      else ⟨⟨50 * Real.cos (0 + 3 * Real.pi / 2), 50 * Real.sin (0 + 3 * Real.pi / 2), 0.5⟩,
        ⟨0, 0, 0⟩⟩) 19 0 0.5 rfl rfl
  exact ⟨⟨h1, h2⟩, h.1, h.2.1⟩

/-- C25: the gaps at the initial placement of the single-process program.  When the `N ≥ 2`
vehicles stand where lines 155-157 put them (vehicle `j` at angle `π/N * j` on the circle of
radius 50, height 0.5), the gap computed for every agent `i < N-1` is `50*π/N`, and the gap
computed for the last agent is `50*π*(N-1)/N`, less than the forward arc `50*π*(N+1)/N` to its
leader, vehicle 0, which lies `π*(N+1)/N` ahead of it; the initial headings are
`π/N * i + π/2`, the direction of increasing angle. -/
theorem C25_initial_placement_gaps (N : Nat) (hN : 2 ≤ N)
    (rom_vec : Nat → Rom.Ch_8DOF_vehicle ℝ)
    (hpos : ∀ j, j < N → (rom_vec j).GetPos =
      Rom.initLoc ⟨Real.cos, Real.sin, Real.pi, Real.pi / 2, 2 * Real.pi⟩ N j) :
    (∀ i, i + 1 < N →
      (Rom.syncArgs ⟨Real.sqrt, fun x y => x ^ y, Real.arccos⟩ rom_vec N i).1 =
        50 * Real.pi / N) ∧
    (Rom.syncArgs ⟨Real.sqrt, fun x y => x ^ y, Real.arccos⟩ rom_vec N (N - 1)).1 =
      50 * Real.pi * (N - 1) / N ∧
    50 * Real.pi * ((N : ℝ) - 1) / N < 50 * Real.pi * (N + 1) / N ∧
    Rom.initLoc ⟨Real.cos, Real.sin, Real.pi, Real.pi / 2, 2 * Real.pi⟩ N 0 =
      ⟨50 * Real.cos (Real.pi / N * ((N - 1 : Nat) : ℝ) + Real.pi * (N + 1) / N),
        50 * Real.sin (Real.pi / N * ((N - 1 : Nat) : ℝ) + Real.pi * (N + 1) / N), 0.5⟩ ∧
    (∀ i, i < N →
      Rom.rot_deg ⟨Real.cos, Real.sin, Real.pi, Real.pi / 2, 2 * Real.pi⟩ N i =
        Real.pi / N * i + Real.pi / 2) := by
  have hpi := Real.pi_pos
  have hN0 : (0 : ℝ) < N := by exact_mod_cast (by omega : 0 < N)
  have hN1 : (1 : ℝ) ≤ N := by exact_mod_cast (by omega : 1 ≤ N)
  have hcast : ((N - 1 : Nat) : ℝ) = (N : ℝ) - 1 := by
    rw [Nat.cast_sub (by omega), Nat.cast_one]
  have hstep : Real.pi / N ≤ Real.pi := div_le_self hpi.le hN1
  have hq0 : 0 ≤ Real.pi / N := by positivity
  refine ⟨fun i hi => ?_, ?_, ?_, ?_, fun i hi => ?_⟩
  · have hmod : (i + 1) % N = i + 1 := Nat.mod_eq_of_lt hi
    have hd : Real.pi / N * ((i + 1 : Nat) : ℝ) - Real.pi / N * (i : ℝ) = Real.pi / N := by
      push_cast
      ring
    rw [Rom_gap_on_circle rom_vec N i (Real.pi / N * i) (Real.pi / N * ((i + 1 : Nat) : ℝ)) 0.5
      (by rw [hd, abs_of_nonneg hq0]; exact hstep)
      (by rw [hpos i (by omega), initLoc_real])
      (by rw [hmod, hpos (i + 1) hi, initLoc_real]), hd, abs_of_nonneg hq0]
    ring
  · have hmod : (N - 1 + 1) % N = 0 := by
      rw [Nat.sub_add_cancel (by omega), Nat.mod_self]
    have hd : Real.pi / N * ((0 : Nat) : ℝ) - Real.pi / N * ((N - 1 : Nat) : ℝ) =
        -(Real.pi / N * ((N : ℝ) - 1)) := by
      rw [hcast]
      push_cast
      ring
    have hnn : 0 ≤ Real.pi / N * ((N : ℝ) - 1) := mul_nonneg hq0 (by linarith)
    have hle : Real.pi / N * ((N : ℝ) - 1) ≤ Real.pi := by
      rw [div_mul_eq_mul_div, div_le_iff₀ hN0]
      nlinarith
    rw [Rom_gap_on_circle rom_vec N (N - 1) (Real.pi / N * ((N - 1 : Nat) : ℝ))
      (Real.pi / N * ((0 : Nat) : ℝ)) 0.5
      (by rw [hd, abs_neg, abs_of_nonneg hnn]; exact hle)
      (by rw [hpos (N - 1) (by omega), initLoc_real])
      (by rw [hmod, hpos 0 (by omega), initLoc_real]), hd, abs_neg, abs_of_nonneg hnn]
    ring
  · apply div_lt_div_of_pos_right _ hN0
    nlinarith
  · rw [initLoc_real, hcast]
    have e : Real.pi / N * ((N : ℝ) - 1) + Real.pi * (N + 1) / N = 2 * Real.pi := by
      field_simp
      ring
    rw [e]
    simp
  · have hiN : (i : ℝ) < N := by exact_mod_cast hi
    have hlt : Real.pi / N * i < Real.pi := by
      rw [div_mul_eq_mul_div, div_lt_iff₀ hN0]
      nlinarith
    simp only [Rom.rot_deg, Rom.deg_sec]
    rw [if_neg]
    · norm_num
    · norm_num
      linarith

/-- C25 at `N = 19`, the number of vehicles of the program: the gap of agent 0 is `50*π/19`,
the gap of agent 18 is `50*π*18/19`. -/
theorem C25_initial_placement_gaps_witness :
    (2 ≤ 19) ∧
    (Rom.syncArgs ⟨Real.sqrt, fun x y => x ^ y, Real.arccos⟩
      (fun j => (⟨Rom.initLoc ⟨Real.cos, Real.sin, Real.pi, Real.pi / 2, 2 * Real.pi⟩ 19 j,
        ⟨0, 0, 0⟩⟩ : Rom.Ch_8DOF_vehicle ℝ)) 19 0).1 = 50 * Real.pi / 19 ∧
    (Rom.syncArgs ⟨Real.sqrt, fun x y => x ^ y, Real.arccos⟩
      (fun j => (⟨Rom.initLoc ⟨Real.cos, Real.sin, Real.pi, Real.pi / 2, 2 * Real.pi⟩ 19 j,
        ⟨0, 0, 0⟩⟩ : Rom.Ch_8DOF_vehicle ℝ)) 19 18).1 = 50 * Real.pi * 18 / 19 := by
  have h := C25_initial_placement_gaps 19 (by decide)
    (fun j => ⟨Rom.initLoc ⟨Real.cos, Real.sin, Real.pi, Real.pi / 2, 2 * Real.pi⟩ 19 j,
      ⟨0, 0, 0⟩⟩) (fun _ _ => rfl)
  refine ⟨by decide, ?_, ?_⟩
  · have h0 := h.1 0 (by decide)
    norm_num at h0 ⊢
    exact h0
  · have h18 := h.2.1
    norm_num at h18 ⊢
    exact h18

end HILchrono
